import Mathlib

/-!
Verification of the 2pc-engine coordination plane: a shallow embedding of the
Go sources (pkg/protocol, pkg/node, pkg/cluster, pkg/two_phase_commit) together
with theorems about leader election, the two-phase-commit coordinator and the
per-participant prepared-transaction store.

Conventions of the embedding:
* Go maps are association lists `List (String × α)`; map iteration plus
  `sort.Strings` is `List.insertionSort (· ≤ ·)` over the keys.
* The SQL database and the network are oracles: a `DBBehavior` fixes the
  outcome of each database call a function may issue, and the side effects
  actually performed are collected in an explicit `DBEffect` trace.
* Fallible Go calls `(T, error)` become products with `Option String` errors
  or `Except String T`.
-/

namespace TwoPC

/-- `protocol.TxState` (pkg/protocol/states.go). -/
inductive TxState where
  | INIT
  | PREPARE
  | READY
  | COMMIT
  | ABORT
deriving Repr, DecidableEq

/-- `protocol.NodeRole` (pkg/protocol/states.go): `MASTER` / `SLAVE`. -/
inductive NodeRole where
  | MASTER
  | SLAVE
deriving Repr, DecidableEq

/-- `protocol.PrepareStatus` (pkg/protocol/states.go): `READY` / `ABORT`. -/
inductive PrepareStatus where
  | READY
  | ABORT
deriving Repr, DecidableEq

/-- An opaque JSON scalar as it appears in a payload `values` / `where` map. -/
inductive GoVal where
  | vstr (s : String)
  | vint (n : Int)
  | vbool (b : Bool)
  | vnull
deriving Repr, DecidableEq

/-- `node.SQLAction` (pkg/node/node.go): table, operation, values, where. -/
structure SQLAction where
  table : String
  operation : String
  values : List (String × GoVal)
  whereKV : List (String × GoVal)
deriving Repr, DecidableEq

/-- Association-list lookup, the embedding of a Go map read `m[k]`. -/
def lookupKV (l : List (String × α)) (k : String) : Option α :=
  match l.find? (fun p => p.1 == k) with
  | some p => some p.2
  | none => none

/-- Association-list erase, the embedding of Go `delete(m, k)`. -/
def eraseKey (l : List (String × α)) (k : String) : List (String × α) :=
  l.filter (fun p => p.1 ≠ k)

/-- Go `strings.ToUpper` (ASCII), kernel-computable. -/
def goToUpper (s : String) : String :=
  String.mk (s.data.map Char.toUpper)

/-- Go `strings.ToLower` (ASCII), kernel-computable. -/
def goToLower (s : String) : String :=
  String.mk (s.data.map Char.toLower)

/-- Go `strings.TrimSpace`, kernel-computable. -/
def goTrim (s : String) : String :=
  String.mk
    (((s.data.dropWhile Char.isWhitespace).reverse.dropWhile
        Char.isWhitespace).reverse)

/-- Character predicate of `safeIdent` (pkg/node/node.go): `[A-Za-z0-9_-]`. -/
def identChar (r : Char) : Bool :=
  r = '_' || r = '-' ||
    ('0' ≤ r && r ≤ '9') || ('a' ≤ r && r ≤ 'z') || ('A' ≤ r && r ≤ 'Z')

/-- `safeIdent` (pkg/node/node.go): validate an identifier and lower-case it. -/
def safeIdent (id : String) : Except String String :=
  if id = "" then .error "identifier empty"
  else if id.toList.all identChar then .ok (goToLower id)
  else .error "identifier contains invalid characters"

/-- Lexicographic comparison of character lists: the order `sort.Strings`
uses (byte-wise in Go; code-point-wise here, identical on ASCII). -/
def goLeList : List Char → List Char → Bool
  | [], _ => true
  | _ :: _, [] => false
  | a :: as, b :: bs =>
    if a = b then goLeList as bs
    else decide (a < b)

/-- Go string comparison `a <= b`. -/
def goStrLe (a b : String) : Bool :=
  goLeList a.data b.data

/-- The ordering relation of `sort.Strings`, as a proposition. -/
def StrLe (a b : String) : Prop :=
  goStrLe a b = true

instance : DecidableRel StrLe :=
  fun a b => Bool.decEq (goStrLe a b) true

theorem goLeList_total (a b : List Char) :
    goLeList a b = true ∨ goLeList b a = true := by
  induction a generalizing b with
  | nil => exact Or.inl rfl
  | cons x xs ih =>
    cases b with
    | nil => exact Or.inr rfl
    | cons y ys =>
      by_cases hxy : x = y
      · subst hxy
        unfold goLeList
        simp only [if_pos rfl]
        exact ih ys
      · unfold goLeList
        rw [if_neg hxy, if_neg (fun h => hxy h.symm)]
        rcases lt_or_gt_of_ne hxy with h | h
        · exact Or.inl (decide_eq_true h)
        · exact Or.inr (decide_eq_true h)

theorem goLeList_trans (a b c : List Char) (h1 : goLeList a b = true)
    (h2 : goLeList b c = true) : goLeList a c = true := by
  induction a generalizing b c with
  | nil => rfl
  | cons x xs ih =>
    cases b with
    | nil => simp [goLeList] at h1
    | cons y ys =>
      cases c with
      | nil => simp [goLeList] at h2
      | cons z zs =>
        unfold goLeList at h1 h2 ⊢
        by_cases hxy : x = y
        · subst hxy
          rw [if_pos rfl] at h1
          by_cases hyz : x = z
          · subst hyz
            rw [if_pos rfl] at h2 ⊢
            exact ih ys zs h1 h2
          · rw [if_neg hyz] at h2 ⊢
            exact h2
        · rw [if_neg hxy] at h1
          have hlt1 : x < y := of_decide_eq_true h1
          by_cases hyz : y = z
          · subst hyz
            rw [if_neg (ne_of_lt hlt1)]
            exact decide_eq_true hlt1
          · rw [if_neg hyz] at h2
            have hlt2 : y < z := of_decide_eq_true h2
            have hxz : x < z := lt_trans hlt1 hlt2
            rw [if_neg (ne_of_lt hxz)]
            exact decide_eq_true hxz

theorem goLeList_antisymm (a b : List Char) (h1 : goLeList a b = true)
    (h2 : goLeList b a = true) : a = b := by
  induction a generalizing b with
  | nil =>
    cases b with
    | nil => rfl
    | cons y ys => simp [goLeList] at h2
  | cons x xs ih =>
    cases b with
    | nil => simp [goLeList] at h1
    | cons y ys =>
      unfold goLeList at h1 h2
      by_cases hxy : x = y
      · subst hxy
        rw [if_pos rfl] at h1 h2
        rw [ih ys h1 h2]
      · rw [if_neg hxy] at h1
        rw [if_neg (fun h => hxy h.symm)] at h2
        exact absurd (lt_trans (of_decide_eq_true h1) (of_decide_eq_true h2))
          (lt_irrefl x)

instance : IsTotal String StrLe :=
  ⟨fun a b => goLeList_total a.data b.data⟩

instance : IsTrans String StrLe :=
  ⟨fun a b c => goLeList_trans a.data b.data c.data⟩

instance : IsAntisymm String StrLe :=
  ⟨fun a b h1 h2 => by
    have hd := goLeList_antisymm a.data b.data h1 h2
    cases a
    cases b
    exact congrArg String.mk hd⟩

/-- `sortedKeys` (pkg/node/node.go): the keys of a map, sorted ascending. -/
def sortedKeys (m : List (String × GoVal)) : List String :=
  List.insertionSort StrLe (m.map Prod.fst)

/-- `placeholder` (pkg/node/node.go): the 1-based positional marker `$i`. -/
def placeholder (idx : Nat) : String :=
  "$" ++ toString idx

/-- `validateSQLAction` (pkg/node/node.go). -/
def validateSQLAction (action : SQLAction) : Except String Unit :=
  if action.table = "" then .error "table is required"
  else if action.values.length = 0 then .error "values are required"
  else if action.operation = "INSERT" then .ok ()
  else if action.operation = "UPDATE" then
    if action.whereKV.length = 0 then .error "where is required for UPDATE"
    else .ok ()
  else .error ("unsupported operation: " ++ action.operation)

/-- `parseSQLAction` (pkg/node/node.go), on a payload that is already an
`SQLAction` value: normalise operation (trim, upper-case, default `INSERT`)
and table (trim), then validate. The JSON-decoding entry points feed the same
normalisation. -/
def parseSQLAction (payload : SQLAction) : Except String SQLAction :=
  let op := goToUpper (goTrim payload.operation)
  let op := if op = "" then "INSERT" else op
  let action := { payload with operation := op, table := goTrim payload.table }
  match validateSQLAction action with
  | .error e => .error e
  | .ok _ => .ok action

/-- The `INSERT` arm of `applySQLAction` (pkg/node/node.go): statement text and
positional argument list. `table` is the already-validated table identifier. -/
def buildInsert (table : String) (values : List (String × GoVal)) :
    Except String (String × List GoVal) := do
  let cols := sortedKeys values
  let idents ← cols.mapM safeIdent
  let colIdents := idents.map (fun i => "\"" ++ i ++ "\"")
  let args := cols.map (fun c => (lookupKV values c).getD GoVal.vnull)
  let phs := (List.range cols.length).map (fun i => placeholder (i + 1))
  .ok ("INSERT INTO \"" ++ table ++ "\" (" ++ String.intercalate "," colIdents
        ++ ") VALUES (" ++ String.intercalate "," phs ++ ")", args)

/-- The `UPDATE` arm of `applySQLAction` (pkg/node/node.go): SET clauses from
the sorted keys of `values`, WHERE clauses from the sorted keys of `where`
joined by AND, all arguments bound positionally in that order. -/
def buildUpdate (table : String) (values whereKV : List (String × GoVal)) :
    Except String (String × List GoVal) := do
  let setCols := sortedKeys values
  let whereCols := sortedKeys whereKV
  if whereCols.length = 0 then
    .error "where is required for UPDATE"
  else
    let setIdents ← setCols.mapM safeIdent
    let whereIdents ← whereCols.mapM safeIdent
    let setParts := (setIdents.zip (List.range setIdents.length)).map
      (fun p => "\"" ++ p.1 ++ "\"=" ++ placeholder (p.2 + 1))
    let whereParts := (whereIdents.zip (List.range whereIdents.length)).map
      (fun p => "\"" ++ p.1 ++ "\"=" ++ placeholder (setCols.length + p.2 + 1))
    let args := setCols.map (fun c => (lookupKV values c).getD GoVal.vnull)
      ++ whereCols.map (fun c => (lookupKV whereKV c).getD GoVal.vnull)
    .ok ("UPDATE \"" ++ table ++ "\" SET " ++ String.intercalate "," setParts
          ++ " WHERE " ++ String.intercalate " AND " whereParts, args)

/-- `applySQLAction` (pkg/node/node.go), restricted to its pure content: the
parameterised statement it executes and the bound arguments. The execution
outcome itself is taken from the database oracle by `nodePrepare`. -/
def applySQLAction (action : SQLAction) : Except String (String × List GoVal) := do
  let table ← safeIdent action.table
  if action.operation = "INSERT" then buildInsert table action.values
  else if action.operation = "UPDATE" then
    buildUpdate table action.values action.whereKV
  else .error ("unsupported operation: " ++ action.operation)

/-- Go `strings.Contains` for the non-empty patterns used by the node. -/
def strContains (s pat : String) : Bool :=
  (s.splitOn pat).length != 1

/-- `isAlreadyFinishedErr` (pkg/node/node.go). -/
def isAlreadyFinishedErr (e : String) : Bool :=
  strContains e "already been committed" ||
    strContains e "already been rolled back" ||
    strContains e "already been committed or rolled back"

/-- One database side effect a node operation may perform, in order. -/
inductive DBEffect where
  | ensureSchema
  | beginTx
  | execStmt (stmt : String) (args : List GoVal)
  | auditInsert (txID : String)
  | txRollback
  | txCommit
  | auditMarkCommitted (txID : String)
  | auditMarkAborted (txID : String)
deriving Repr, DecidableEq

/-- Oracle fixing the outcome of each database call `node.Node` may issue
during one Prepare / Commit / Abort. `none` means the call succeeds. -/
structure DBBehavior where
  ensureSchemaErr : Option String := none
  beginErr : Option String := none
  execErr : Option String := none
  auditInsertErr : Option String := none
  auditRowsAffected : Nat := 1
  commitStatusUpdErr : Option String := none
  txCommitErr : Option String := none
  rollbackErr : Option String := none
  idemCommitUpdErr : Option String := none
  idemAbortUpdErr : Option String := none
deriving Repr, DecidableEq

/-- `node.Node` (pkg/node/node.go): the mutable fields the 2PC operations
read and write. `pendingTx` holds the ids with an open database transaction
handle; `pendingData` is the simulated / visibility map keyed by id. -/
structure NodeState where
  addr : String
  role : NodeRole
  isAlive : Bool
  txState : TxState
  pendingTx : List String
  pendingData : List (String × SQLAction)
  hasDB : Bool
deriving Repr, DecidableEq

/-- A fresh `node.NewNode` (pkg/node/node.go): alive, `INIT`, empty maps. -/
def newNode (addr : String) (role : NodeRole) : NodeState :=
  { addr := addr, role := role, isAlive := true, txState := TxState.INIT,
    pendingTx := [], pendingData := [], hasDB := false }

/-- `Node.Prepare` (pkg/node/node.go): result `(ready, error)`, the node state
after the call, and the database effects performed. -/
def nodePrepare (db : DBBehavior) (s : NodeState) (txID : String)
    (payload : SQLAction) :
    (Bool × Option String) × NodeState × List DBEffect :=
  if (lookupKV s.pendingData txID).isSome then
    ((false, some "transaction already in progress"), s, [])
  else if s.hasDB then
    match db.ensureSchemaErr with
    | some e => ((false, some e), s, [DBEffect.ensureSchema])
    | none =>
      match db.beginErr with
      | some e => ((false, some e), s, [DBEffect.ensureSchema, DBEffect.beginTx])
      | none =>
        match parseSQLAction payload with
        | .error e =>
          ((false, some e), s,
            [DBEffect.ensureSchema, DBEffect.beginTx, DBEffect.txRollback])
        | .ok action =>
          match applySQLAction action with
          | .error e =>
            ((false, some e), s,
              [DBEffect.ensureSchema, DBEffect.beginTx, DBEffect.txRollback])
          | .ok sa =>
            match db.execErr with
            | some e =>
              ((false, some e), s,
                [DBEffect.ensureSchema, DBEffect.beginTx,
                  DBEffect.execStmt sa.1 sa.2, DBEffect.txRollback])
            | none =>
              match db.auditInsertErr with
              | some e =>
                ((false, some e), s,
                  [DBEffect.ensureSchema, DBEffect.beginTx,
                    DBEffect.execStmt sa.1 sa.2, DBEffect.auditInsert txID,
                    DBEffect.txRollback])
              | none =>
                if db.auditRowsAffected = 0 then
                  ((false, some "transaction already exists"), s,
                    [DBEffect.ensureSchema, DBEffect.beginTx,
                      DBEffect.execStmt sa.1 sa.2, DBEffect.auditInsert txID,
                      DBEffect.txRollback])
                else
                  ((true, none),
                    { s with pendingTx := txID :: s.pendingTx,
                             pendingData := (txID, payload) :: s.pendingData,
                             txState := TxState.READY },
                    [DBEffect.ensureSchema, DBEffect.beginTx,
                      DBEffect.execStmt sa.1 sa.2, DBEffect.auditInsert txID])
  else
    ((true, none),
      { s with pendingData := (txID, payload) :: s.pendingData,
               txState := TxState.READY }, [])

/-- Shared tail of `Node.Commit` / `Node.Abort`: clear the simulated data and
set the terminal state. -/
def cleanupTx (s : NodeState) (txID : String) (final : TxState) : NodeState :=
  { s with pendingData := eraseKey s.pendingData txID, txState := final }

/-- The `tx.Commit()` step of `Node.Commit` (pkg/node/node.go), reached after
the status update: already-finalised errors are swallowed, the handle entry is
then dropped and the cleanup tail runs. -/
def nodeCommitFinish (db : DBBehavior) (s : NodeState) (txID : String)
    (fx : List DBEffect) : Option String × NodeState × List DBEffect :=
  match db.txCommitErr with
  | some e =>
    if isAlreadyFinishedErr e then
      (none,
        cleanupTx { s with pendingTx := s.pendingTx.filter (· ≠ txID) } txID
          TxState.COMMIT, fx ++ [DBEffect.txCommit])
    else (some e, s, fx ++ [DBEffect.txCommit])
  | none =>
    (none,
      cleanupTx { s with pendingTx := s.pendingTx.filter (· ≠ txID) } txID
        TxState.COMMIT, fx ++ [DBEffect.txCommit])

/-- `Node.Commit` (pkg/node/node.go). -/
def nodeCommit (db : DBBehavior) (s : NodeState) (txID : String) :
    Option String × NodeState × List DBEffect :=
  if s.pendingTx.contains txID then
    match db.commitStatusUpdErr with
    | some e =>
      if isAlreadyFinishedErr e then
        nodeCommitFinish db s txID [DBEffect.auditMarkCommitted txID]
      else
        (some e, s, [DBEffect.auditMarkCommitted txID, DBEffect.txRollback])
    | none => nodeCommitFinish db s txID [DBEffect.auditMarkCommitted txID]
  else if s.hasDB then
    match db.idemCommitUpdErr with
    | some e => (some e, s, [DBEffect.auditMarkCommitted txID])
    | none =>
      (none, cleanupTx s txID TxState.COMMIT,
        [DBEffect.auditMarkCommitted txID])
  else
    (none, cleanupTx s txID TxState.COMMIT, [])

/-- `Node.Abort` (pkg/node/node.go). -/
def nodeAbort (db : DBBehavior) (s : NodeState) (txID : String) :
    Option String × NodeState × List DBEffect :=
  if s.pendingTx.contains txID then
    match db.rollbackErr with
    | some e =>
      if isAlreadyFinishedErr e then
        (none,
          cleanupTx { s with pendingTx := s.pendingTx.filter (· ≠ txID) } txID
            TxState.ABORT, [DBEffect.txRollback])
      else (some e, s, [DBEffect.txRollback])
    | none =>
      (none,
        cleanupTx { s with pendingTx := s.pendingTx.filter (· ≠ txID) } txID
          TxState.ABORT, [DBEffect.txRollback])
  else if s.hasDB then
    match db.idemAbortUpdErr with
    | some e => (some e, s, [DBEffect.auditMarkAborted txID])
    | none =>
      (none, cleanupTx s txID TxState.ABORT, [DBEffect.auditMarkAborted txID])
  else
    (none, cleanupTx s txID TxState.ABORT, [])

/-- `protocol.PrepareResponse` (pkg/protocol/messages.go). -/
structure PrepareResponse where
  status : PrepareStatus
  error : String
deriving Repr, DecidableEq

/-- `protocol.CommitResponse` / `protocol.AbortResponse`
(pkg/protocol/messages.go): both carry `success` and `error`. -/
structure CommitResponse where
  success : Bool
  error : String
deriving Repr, DecidableEq

/-- `twophasecommit.Participant` (pkg/two_phase_commit/participant.go): the
wrapped node plus its own transaction-state map. -/
structure PartState where
  node : NodeState
  txs : List (String × TxState)
deriving Repr, DecidableEq

/-- `Participant.Prepare` (pkg/two_phase_commit/participant.go). -/
def partPrepare (db : DBBehavior) (p : PartState) (txID : String)
    (payload : SQLAction) : PrepareResponse × PartState × List DBEffect :=
  if (lookupKV p.txs txID).isSome then
    ({ status := PrepareStatus.ABORT,
       error := "Transaction already in progress" }, p, [])
  else
    let r := nodePrepare db p.node txID payload
    if r.1.1 = false ∨ r.1.2.isSome then
      let errMsg := match r.1.2 with
        | some e => e
        | none => "Prepare failed"
      ({ status := PrepareStatus.ABORT, error := errMsg },
        { p with node := r.2.1 }, r.2.2)
    else
      ({ status := PrepareStatus.READY, error := "" },
        { node := r.2.1, txs := (txID, TxState.READY) :: p.txs }, r.2.2)

/-- `Participant.Commit` (pkg/two_phase_commit/participant.go). -/
def partCommit (db : DBBehavior) (p : PartState) (txID : String) :
    CommitResponse × PartState × List DBEffect :=
  match lookupKV p.txs txID with
  | none => ({ success := false, error := "Transaction not found" }, p, [])
  | some st =>
    if st ≠ TxState.READY then
      ({ success := false, error := "Transaction not in READY state" }, p, [])
    else
      let r := nodeCommit db p.node txID
      match r.1 with
      | some e => ({ success := false, error := e }, { p with node := r.2.1 }, r.2.2)
      | none =>
        ({ success := true, error := "" },
          { node := r.2.1, txs := eraseKey p.txs txID }, r.2.2)

/-- `Participant.Abort` (pkg/two_phase_commit/participant.go). -/
def partAbort (db : DBBehavior) (p : PartState) (txID : String) :
    CommitResponse × PartState × List DBEffect :=
  match lookupKV p.txs txID with
  | none => ({ success := true, error := "" }, p, [])
  | some _ =>
    let r := nodeAbort db p.node txID
    match r.1 with
    | some e => ({ success := false, error := e }, { p with node := r.2.1 }, r.2.2)
    | none =>
      ({ success := true, error := "" },
        { node := r.2.1, txs := eraseKey p.txs txID }, r.2.2)

/-- `protocol.TransactionResponse` (pkg/protocol/messages.go). -/
structure TransactionResponse where
  transactionID : String
  success : Bool
  message : String
  error : String
deriving Repr, DecidableEq

deriving instance DecidableEq for Except

/-- Network-side behaviour of one remote participant for one transaction:
what its `/prepare`, `/commit` and `/abort` endpoints would answer.
`Except.error` is a transport error (`err != nil`, no response). -/
structure RemoteBehavior where
  addr : String
  prepareR : Except String PrepareResponse
  commitR : Except String CommitResponse
  abortR : Except String CommitResponse
deriving Repr, DecidableEq

/-- Environment of one `Coordinator.Execute` call
(pkg/two_phase_commit/coordinator.go): whether a local node participates
(`c.localNode != nil`), the outcomes of its in-process Prepare / Commit /
Abort, and the snapshot of live remote followers (`GetSlaveNodes`). -/
structure ExecEnv where
  includeLocal : Bool
  localAddr : String
  localPrepare : Bool × Option String
  localCommitErr : Option String
  localAbortErr : Option String
  remotes : List RemoteBehavior
deriving Repr, DecidableEq

/-- One observable call the coordinator makes during `Execute`. -/
inductive CoordEffect where
  | localPrepare
  | localCommit
  | localAbort
  | remotePrepare (addr : String)
  | remoteCommit (addr : String)
  | remoteAbort (addr : String)
deriving Repr, DecidableEq

/-- `prepareOutcome` (pkg/two_phase_commit/coordinator.go). -/
structure PrepOutcome where
  includeLocal : Bool
  localPrepared : Bool
  preparedRemotes : List String
  failedNodes : List String
deriving Repr, DecidableEq

/-- Success of one entry of `preparePhase`: `err == nil && resp != nil &&
resp.Status == protocol.StatusReady`. -/
def remotePrepareSuccess (r : RemoteBehavior) : Bool :=
  match r.prepareR with
  | .ok resp => resp.status == PrepareStatus.READY
  | .error _ => false

/-- The network as the `commitPhase` goroutine for address `addr` sees it:
`err == nil && resp != nil && resp.Success` (the promotion of a body-level
error into `err` does not change this success value). -/
def remoteCommitSuccess (env : ExecEnv) (addr : String) : Bool :=
  match env.remotes.find? (fun r => r.addr == addr) with
  | some r =>
    match r.commitR with
    | .ok resp => resp.success
    | .error _ => false
  | none => false

/-- `Coordinator.prepareTransaction` (pkg/two_phase_commit/coordinator.go):
local prepare first, then the remote fan-out; a failed local prepare records
`addr ++ " (local)"`. -/
def prepareTransaction (env : ExecEnv) : PrepOutcome × List CoordEffect :=
  let localPart :=
    if env.includeLocal then
      if env.localPrepare.1 = true ∧ env.localPrepare.2 = none then
        ((true, ([] : List String)), [CoordEffect.localPrepare])
      else
        ((false, [env.localAddr ++ " (local)"]), [CoordEffect.localPrepare])
    else ((false, []), [])
  let results := env.remotes.map (fun r => (r.addr, remotePrepareSuccess r))
  let preparedRemotes := (results.filter (fun p => p.2)).map Prod.fst
  let failedRemotes := (results.filter (fun p => !p.2)).map Prod.fst
  ({ includeLocal := env.includeLocal,
     localPrepared := localPart.1.1,
     preparedRemotes := preparedRemotes,
     failedNodes := localPart.1.2 ++ failedRemotes },
    localPart.2 ++ env.remotes.map (fun r => CoordEffect.remotePrepare r.addr))

/-- `Coordinator.commitTransaction` (pkg/two_phase_commit/coordinator.go):
local commit when the local node prepared, then `commitPhase` over the
prepared remotes; result `(commitSuccess, totalCommitted)`. -/
def commitTransaction (env : ExecEnv) (o : PrepOutcome) :
    (Bool × Nat) × List CoordEffect :=
  let localStep :=
    if o.includeLocal ∧ o.localPrepared then
      (env.localCommitErr.isNone, [CoordEffect.localCommit])
    else (true, [])
  let commitSuccess :=
    localStep.1 && o.preparedRemotes.all (fun a => remoteCommitSuccess env a)
  let totalCommitted :=
    o.preparedRemotes.length + (if o.includeLocal ∧ o.localPrepared then 1 else 0)
  ((commitSuccess, totalCommitted),
    localStep.2 ++ o.preparedRemotes.map (fun a => CoordEffect.remoteCommit a))

/-- `Coordinator.abortTransaction` (pkg/two_phase_commit/coordinator.go):
local abort only when the local node prepared, then `abortPhase` over every
address that was sent a remote prepare. -/
def abortTransaction (o : PrepOutcome) (participantAddrs : List String) :
    List CoordEffect :=
  (if o.includeLocal ∧ o.localPrepared then [CoordEffect.localAbort] else [])
    ++ participantAddrs.map (fun a => CoordEffect.remoteAbort a)

/-- Go `fmt.Sprintf("%v", xs)` for a string slice: `[a b c]`. -/
def goFmtStrings (xs : List String) : String :=
  "[" ++ String.intercalate " " xs ++ "]"

/-- `Coordinator.Execute` (pkg/two_phase_commit/coordinator.go) for a fresh
transaction id `txID`, against environment `env`: the response returned to
the client and the trace of protocol calls issued. -/
def coordExecute (txID : String) (env : ExecEnv) :
    TransactionResponse × List CoordEffect :=
  let totalParticipants :=
    env.remotes.length + (if env.includeLocal then 1 else 0)
  if totalParticipants = 0 then
    ({ transactionID := txID, success := false, message := "",
       error := "No participants available" }, [])
  else
    let participantAddrs := env.remotes.map (fun r => r.addr)
    let po := prepareTransaction env
    if po.1.failedNodes ≠ [] then
      let fx2 := abortTransaction po.1 participantAddrs
      ({ transactionID := txID, success := false, message := "",
         error := "Prepare failed for nodes: " ++ goFmtStrings po.1.failedNodes },
        po.2 ++ fx2)
    else
      let co := commitTransaction env po.1
      if co.1.1 then
        ({ transactionID := txID, success := true,
           message := "Transaction committed on " ++ toString co.1.2 ++ " nodes",
           error := "" }, po.2 ++ co.2)
      else
        ({ transactionID := txID, success := false, message := "",
           error := "Some commits failed" }, po.2 ++ co.2)

/-- Per-node cluster record: the fields of `node.Node` that the membership
table and the election read and write (role and liveness). -/
structure NodeRec where
  role : NodeRole
  alive : Bool
deriving Repr, DecidableEq

/-- `cluster.Cluster` (pkg/cluster/cluster.go): address-keyed node map and the
master pointer. -/
structure ClusterState where
  nodes : List (String × NodeRec)
  master : Option String
deriving Repr, DecidableEq

/-- `cluster.NewCluster` (pkg/cluster/cluster.go). -/
def emptyCluster : ClusterState :=
  { nodes := [], master := none }

/-- Go map assignment `m[k] = v`: overwrite in place or insert. -/
def insertKV (l : List (String × α)) (k : String) (v : α) :
    List (String × α) :=
  if (lookupKV l k).isSome then
    l.map (fun p => if p.1 = k then (k, v) else p)
  else (k, v) :: l

/-- Addresses of the records with `alive = true`, in map order. -/
def aliveAddrs (nodes : List (String × NodeRec)) : List String :=
  (nodes.filter (fun p => p.2.alive)).map Prod.fst

/-- `lowestAliveAddrLocked` (pkg/cluster/election.go): sort the alive
addresses, return the first, or `""` when there is none. -/
def lowestAliveAddr (nodes : List (String × NodeRec)) : String :=
  (List.insertionSort StrLe (aliveAddrs nodes)).headD ""

/-- `n.SetRole ρ` applied to every record (the reset loop of
`electMasterLocked`). -/
def setRoleAll (ρ : NodeRole) (nodes : List (String × NodeRec)) :
    List (String × NodeRec) :=
  nodes.map (fun p => (p.1, { p.2 with role := ρ }))

/-- `n.SetRole ρ` applied to the record at address `a`. -/
def setRoleOf (a : String) (ρ : NodeRole) (nodes : List (String × NodeRec)) :
    List (String × NodeRec) :=
  nodes.map (fun p => if p.1 = a then (p.1, { p.2 with role := ρ }) else p)

/-- `n.SetAlive b` applied to the record at address `a`. -/
def setAliveOf (a : String) (b : Bool) (nodes : List (String × NodeRec)) :
    List (String × NodeRec) :=
  nodes.map (fun p => if p.1 = a then (p.1, { p.2 with alive := b }) else p)

/-- `GetAlive` of the record at address `a` (dead when absent). -/
def aliveOf (nodes : List (String × NodeRec)) (a : String) : Bool :=
  match lookupKV nodes a with
  | some r => r.alive
  | none => false

/-- `electMasterLocked` (pkg/cluster/election.go): no alive node clears the
pointer (roles untouched); otherwise every role is reset to `SLAVE`, the
lowest alive address becomes `MASTER` and the pointer moves to it. -/
def electMasterLocked (s : ClusterState) : ClusterState × Bool :=
  let lowestAlive := lowestAliveAddr s.nodes
  if lowestAlive = "" then ({ s with master := none }, false)
  else
    ({ nodes := setRoleOf lowestAlive NodeRole.MASTER
                  (setRoleAll NodeRole.SLAVE s.nodes),
       master := some lowestAlive }, true)

/-- `Cluster.ElectMaster` (pkg/cluster/election.go). -/
def electMaster (s : ClusterState) : ClusterState :=
  (electMasterLocked s).1

/-- `Cluster.EvictMaster` (pkg/cluster/election.go): demote the current
master, if any, and clear the pointer. -/
def evictMaster (s : ClusterState) : ClusterState :=
  match s.master with
  | none => s
  | some m => { nodes := setRoleOf m NodeRole.SLAVE s.nodes, master := none }

/-- `Cluster.CheckAndElect` (pkg/cluster/election.go): demote a dead master,
then elect when there is no master or the master is not the lowest alive
address. -/
def checkAndElect (s : ClusterState) : ClusterState × Bool :=
  let lowestAlive := lowestAliveAddr s.nodes
  let s1 := match s.master with
    | none => s
    | some m =>
      if aliveOf s.nodes m then s
      else { nodes := setRoleOf m NodeRole.SLAVE s.nodes, master := none }
  let currentMaster := match s.master with
    | none => ""
    | some m => if aliveOf s.nodes m then m else ""
  if lowestAlive = "" then
    match s1.master with
    | some m2 =>
      ({ nodes := setRoleOf m2 NodeRole.SLAVE s1.nodes, master := none }, false)
    | none => (s1, false)
  else if s1.master = none ∨ currentMaster ≠ lowestAlive then
    electMasterLocked s1
  else (s1, false)

/-- `Cluster.AddNode` (pkg/cluster/cluster.go): `c.nodes[n.Addr] = n`. -/
def addNode (s : ClusterState) (addr : String) (rec : NodeRec) : ClusterState :=
  { s with nodes := insertKV s.nodes addr rec }

/-- `Cluster.RemoveNode` (pkg/cluster/cluster.go): delete when present; if the
removed node is the master, clear the pointer. -/
def removeNode (s : ClusterState) (addr : String) : ClusterState :=
  match lookupKV s.nodes addr with
  | none => s
  | some _ =>
    { nodes := eraseKey s.nodes addr,
      master := if s.master = some addr then none else s.master }

/-- `Cluster.SetMaster` (pkg/cluster/cluster.go) on a node of the map: demote
the old master via the pointer, promote `addr`, move the pointer. -/
def setMaster (s : ClusterState) (addr : String) : ClusterState :=
  let demoted := match s.master with
    | none => s.nodes
    | some m => setRoleOf m NodeRole.SLAVE s.nodes
  { nodes := setRoleOf addr NodeRole.MASTER demoted, master := some addr }

/-- `Cluster.SetAlive` on the record at `addr` (the heartbeat path). -/
def setAlive (s : ClusterState) (addr : String) (b : Bool) : ClusterState :=
  { s with nodes := setAliveOf addr b s.nodes }

/-- The membership / election operations named by the specification. -/
inductive ClusterOp where
  | add (addr : String) (rec : NodeRec)
  | remove (addr : String)
  | setMasterOp (addr : String)
  | setAliveOp (addr : String) (b : Bool)
  | electOp
  | evictOp
  | checkOp
deriving Repr, DecidableEq

/-- Apply one operation. -/
def applyOp (s : ClusterState) : ClusterOp → ClusterState
  | ClusterOp.add a r => addNode s a r
  | ClusterOp.remove a => removeNode s a
  | ClusterOp.setMasterOp a => setMaster s a
  | ClusterOp.setAliveOp a b => setAlive s a b
  | ClusterOp.electOp => electMaster s
  | ClusterOp.evictOp => evictMaster s
  | ClusterOp.checkOp => (checkAndElect s).1

/-- Apply a sequence of operations starting from the empty cluster. -/
def applyOps (ops : List ClusterOp) : ClusterState :=
  ops.foldl applyOp emptyCluster

/-- Keys (addresses) of the node map. -/
def keysOf (nodes : List (String × α)) : List String :=
  nodes.map Prod.fst

/-- Number of records carrying the `MASTER` role. -/
def masterCount (nodes : List (String × NodeRec)) : Nat :=
  nodes.countP (fun p => p.2.role == NodeRole.MASTER)

/-- The leader invariant of the specification, §3 and §8: at most one record
with role `MASTER`, and a non-nil master pointer references a present record
whose role is `MASTER`; plus map well-formedness (distinct, non-empty
addresses). -/
def ClusterInv (s : ClusterState) : Prop :=
  (keysOf s.nodes).Nodup ∧
  (∀ a ∈ keysOf s.nodes, a ≠ "") ∧
  masterCount s.nodes ≤ 1 ∧
  (∀ m, s.master = some m →
    ∃ r, lookupKV s.nodes m = some r ∧ r.role = NodeRole.MASTER)

/-- States reachable from the empty cluster by the restricted operation set:
nodes are added as followers at fresh non-empty addresses, and `SetMaster` is
not used (elections alone move the role). -/
inductive ReachR : ClusterState → Prop where
  | init : ReachR emptyCluster
  | add (s : ClusterState) (addr : String) (alive : Bool) : ReachR s →
      lookupKV s.nodes addr = none → addr ≠ "" →
      ReachR (addNode s addr { role := NodeRole.SLAVE, alive := alive })
  | remove (s : ClusterState) (addr : String) : ReachR s →
      ReachR (removeNode s addr)
  | live (s : ClusterState) (addr : String) (b : Bool) : ReachR s →
      ReachR (setAlive s addr b)
  | elect (s : ClusterState) : ReachR s → ReachR (electMaster s)
  | evict (s : ClusterState) : ReachR s → ReachR (evictMaster s)
  | check (s : ClusterState) : ReachR s → ReachR (checkAndElect s).1

/-! ### Association-list lemmas -/

theorem lookupKV_cons (x : String × α) (l : List (String × α)) (k : String) :
    lookupKV (x :: l) k = if x.1 = k then some x.2 else lookupKV l k := by
  by_cases hx : x.1 = k
  · unfold lookupKV
    rw [List.find?_cons_of_pos _ (by simp [hx])]
    simp [hx]
  · unfold lookupKV
    rw [List.find?_cons_of_neg _ (by simp [hx])]
    simp [hx]

theorem eraseKey_cons (x : String × α) (l : List (String × α)) (k : String) :
    eraseKey (x :: l) k = if x.1 = k then eraseKey l k else x :: eraseKey l k := by
  by_cases hx : x.1 = k
  · simp [eraseKey, List.filter_cons, hx]
  · simp [eraseKey, List.filter_cons, hx]

theorem lookupKV_eraseKey_self (l : List (String × α)) (k : String) :
    lookupKV (eraseKey l k) k = none := by
  induction l with
  | nil => rfl
  | cons x xs ih =>
    rw [eraseKey_cons]
    by_cases hx : x.1 = k
    · simp [hx, ih]
    · simp only [if_neg hx]
      rw [lookupKV_cons]
      simp [hx, ih]

theorem eraseKey_of_lookup_none (l : List (String × α)) (k : String)
    (h : lookupKV l k = none) : eraseKey l k = l := by
  induction l with
  | nil => rfl
  | cons x xs ih =>
    rw [lookupKV_cons] at h
    by_cases hx : x.1 = k
    · simp [hx] at h
    · simp only [if_neg hx] at h
      rw [eraseKey_cons, if_neg hx, ih h]

theorem filter_ne_self_of_not_contains (l : List String) (k : String)
    (h : l.contains k = false) : l.filter (· ≠ k) = l := by
  induction l with
  | nil => rfl
  | cons x xs ih =>
    simp only [List.contains_cons, Bool.or_eq_false_iff] at h
    have hx : ¬x = k := by
      intro he
      simp [he] at h
    rw [List.filter_cons, if_pos (by simp [hx]), ih h.2]

theorem contains_filter_ne_self (l : List String) (k : String) :
    (l.filter (· ≠ k)).contains k = false := by
  induction l with
  | nil => rfl
  | cons x xs ih =>
    by_cases hx : x = k
    · simp [List.filter_cons, hx, ih]
    · have hkx : ¬k = x := fun he => hx he.symm
      simp [List.filter_cons, hx, List.contains_cons, ih, hkx]

/-! ### Claims C5 and C10: duplicate prepare, abort of an unknown id -/

/-- Claim C5: a second Prepare for a transaction id that is already pending is
rejected with a participant-busy error. `Node.Prepare` returns
`(false, "transaction already in progress")` without touching the node state
and without any database work, and `Participant.Prepare` answers status
`ABORT` with error `"Transaction already in progress"`, leaving the
participant state untouched. -/
theorem c5_duplicate_prepare_rejected (db : DBBehavior) (s : NodeState)
    (p : PartState) (txID : String) (payload : SQLAction)
    (hn : (lookupKV s.pendingData txID).isSome)
    (hp : (lookupKV p.txs txID).isSome) :
    nodePrepare db s txID payload =
      ((false, some "transaction already in progress"), s, []) ∧
    partPrepare db p txID payload =
      ({ status := PrepareStatus.ABORT,
         error := "Transaction already in progress" }, p, []) := by
  constructor
  · unfold nodePrepare
    simp [hn]
  · unfold partPrepare
    simp [hp]

/-- Fixture payload: `insert into t values (a = 1)`. -/
def fixAction : SQLAction :=
  { table := "t", operation := "INSERT", values := [("a", GoVal.vint 1)],
    whereKV := [] }

/-- Fixture node with transaction `t1` pending in memory. -/
def fixPendingNode : NodeState :=
  { newNode "n1" NodeRole.SLAVE with pendingData := [("t1", fixAction)] }

/-- Fixture participant with transaction `t1` in the READY state. -/
def fixPendingPart : PartState :=
  { node := newNode "n2" NodeRole.SLAVE, txs := [("t1", TxState.READY)] }

/-- Witness for C5 at a concrete pending node and participant. -/
theorem c5_witness :
    nodePrepare {} fixPendingNode "t1" fixAction =
      ((false, some "transaction already in progress"), fixPendingNode, []) ∧
    (partPrepare {} fixPendingPart "t1" fixAction).1.status =
      PrepareStatus.ABORT := by
  have h := c5_duplicate_prepare_rejected {} fixPendingNode fixPendingPart
    "t1" fixAction (by decide) (by decide)
  exact ⟨h.1, by rw [h.2]⟩

/-- Claim C10: aborting a transaction id that was never prepared (or already
cleared) succeeds. `Node.Abort` returns a nil error and only moves `TxState`
to `ABORT`, leaving the pending maps unchanged; `Participant.Abort` answers
`Success = true` without touching its state. -/
theorem c10_abort_unknown_id_succeeds (db : DBBehavior) (s : NodeState)
    (p : PartState) (txID : String)
    (h1 : s.pendingTx.contains txID = false)
    (h2 : lookupKV s.pendingData txID = none)
    (h3 : s.hasDB = true → db.idemAbortUpdErr = none)
    (h4 : lookupKV p.txs txID = none) :
    (nodeAbort db s txID).1 = none ∧
    (nodeAbort db s txID).2.1 = { s with txState := TxState.ABORT } ∧
    partAbort db p txID = ({ success := true, error := "" }, p, []) := by
  have hclean : cleanupTx s txID TxState.ABORT = { s with txState := TxState.ABORT } := by
    unfold cleanupTx
    rw [eraseKey_of_lookup_none _ _ h2]
  have h1' : ¬txID ∈ s.pendingTx := by
    simpa using h1
  refine ⟨?_, ?_, ?_⟩
  · unfold nodeAbort
    by_cases hdb : s.hasDB
    · simp [h1', hdb, h3 hdb]
    · simp [h1', hdb]
  · unfold nodeAbort
    by_cases hdb : s.hasDB
    · simp [h1', hdb, h3 hdb, hclean]
    · simp [h1', hdb, hclean]
  · unfold partAbort
    simp [h4]

/-- Witness for C10 on a concrete idle node with a database. -/
theorem c10_witness :
    (nodeAbort {} { newNode "n1" NodeRole.SLAVE with hasDB := true } "t9").1 = none ∧
    partAbort {} { node := newNode "n1" NodeRole.SLAVE, txs := [] } "t9" =
      ({ success := true, error := "" },
        { node := newNode "n1" NodeRole.SLAVE, txs := [] }, []) := by
  have h := c10_abort_unknown_id_succeeds {}
    { newNode "n1" NodeRole.SLAVE with hasDB := true }
    { node := newNode "n1" NodeRole.SLAVE, txs := [] } "t9"
    (by decide) (by decide) (fun _ => rfl) (by decide)
  exact ⟨h.1, h.2.2⟩

/-! ### Claim C7: UPDATE without a where clause -/

theorem parse_update_no_where (payload : SQLAction)
    (hop : goToUpper (goTrim payload.operation) = "UPDATE")
    (hw : payload.whereKV = []) :
    ∃ e, parseSQLAction payload = Except.error e := by
  unfold parseSQLAction validateSQLAction
  rw [hop]
  by_cases ht : goTrim payload.table = ""
  · simp [ht, hw]
  · by_cases hv : payload.values.length = 0
    · simp [ht, hv, hw]
    · simp [ht, hv, hw]

/-- Claim C7 (amended): on a node with an attached database, a Prepare whose
payload is an UPDATE with an absent or empty `where` map is rejected with
`(false, error)`: no SQL statement is executed, no audit row is inserted and
the node state is unchanged — but, contrary to the original claim, a database
transaction is begun (after the schema check) and rolled back before the
validation error is returned. -/
theorem c7_update_without_where_rejected (db : DBBehavior) (s : NodeState)
    (txID : String) (payload : SQLAction)
    (hdb : s.hasDB = true)
    (hdup : lookupKV s.pendingData txID = none)
    (hop : goToUpper (goTrim payload.operation) = "UPDATE")
    (hw : payload.whereKV = []) :
    (nodePrepare db s txID payload).1.1 = false ∧
    (nodePrepare db s txID payload).1.2.isSome = true ∧
    (nodePrepare db s txID payload).2.1 = s ∧
    (∀ stmt args, DBEffect.execStmt stmt args ∉ (nodePrepare db s txID payload).2.2) ∧
    (∀ t, DBEffect.auditInsert t ∉ (nodePrepare db s txID payload).2.2) := by
  obtain ⟨e, hpe⟩ := parse_update_no_where payload hop hw
  unfold nodePrepare
  rcases hse : db.ensureSchemaErr with _ | e1
  · rcases hbe : db.beginErr with _ | e2
    · simp [hdup, hdb, hse, hbe, hpe]
    · simp [hdup, hdb, hse, hbe]
  · simp [hdup, hdb, hse]

/-- Fixture node with an attached database and nothing pending. -/
def fixDBNode : NodeState :=
  { newNode "n1" NodeRole.SLAVE with hasDB := true }

/-- Fixture payload: UPDATE with an empty `where` map. -/
def fixUpdNoWhere : SQLAction :=
  { table := "users", operation := "UPDATE",
    values := [("name", GoVal.vstr "x")], whereKV := [] }

/-- Counterexample to C7 as stated: at this concrete input the rejection does
not happen "before any database work occurs" — a database transaction is
begun (`BeginTx`) and then rolled back. -/
theorem c7_counterexample :
    DBEffect.beginTx ∈ (nodePrepare {} fixDBNode "t1" fixUpdNoWhere).2.2 ∧
    DBEffect.txRollback ∈ (nodePrepare {} fixDBNode "t1" fixUpdNoWhere).2.2 ∧
    (nodePrepare {} fixDBNode "t1" fixUpdNoWhere).1 =
      (false, some "where is required for UPDATE") := by
  decide

/-- Witness for C7 at the same concrete input. -/
theorem c7_witness :
    (nodePrepare {} fixDBNode "t1" fixUpdNoWhere).1.1 = false ∧
    (nodePrepare {} fixDBNode "t1" fixUpdNoWhere).2.1 = fixDBNode := by
  have h := c7_update_without_where_rejected {} fixDBNode "t1" fixUpdNoWhere
    rfl (by decide) (by decide) rfl
  exact ⟨h.1, h.2.2.1⟩

/-! ### Claim C6: idempotency of Commit and Abort -/

theorem cleanupTx_self (t : NodeState) (txID : String) (final : TxState)
    (h1 : lookupKV t.pendingData txID = none) (h2 : t.txState = final) :
    cleanupTx t txID final = t := by
  unfold cleanupTx
  rw [eraseKey_of_lookup_none _ _ h1, ← h2]

theorem nodeCommit_ok_post (db : DBBehavior) (s : NodeState) (txID : String)
    (h : (nodeCommit db s txID).1 = none) :
    (nodeCommit db s txID).2.1.pendingTx.contains txID = false ∧
    lookupKV (nodeCommit db s txID).2.1.pendingData txID = none ∧
    (nodeCommit db s txID).2.1.txState = TxState.COMMIT ∧
    (nodeCommit db s txID).2.1.hasDB = s.hasDB := by
  unfold nodeCommit nodeCommitFinish at h ⊢
  by_cases hc : s.pendingTx.contains txID = true
  · rcases hce : db.commitStatusUpdErr with _ | e1 <;>
      simp only [hce, hc, if_true] at h ⊢
    · rcases hte : db.txCommitErr with _ | e2 <;>
        simp only [hte] at h ⊢
      · simp [cleanupTx, contains_filter_ne_self, lookupKV_eraseKey_self]
      · by_cases hfe : isAlreadyFinishedErr e2 = true <;>
          simp only [hfe, if_true, if_false, Bool.false_eq_true] at h ⊢
        · simp [cleanupTx, contains_filter_ne_self, lookupKV_eraseKey_self]
        · simp at h
    · by_cases hfe : isAlreadyFinishedErr e1 = true <;>
        simp only [hfe, if_true, if_false, Bool.false_eq_true] at h ⊢
      · rcases hte : db.txCommitErr with _ | e2 <;>
          simp only [hte] at h ⊢
        · simp [cleanupTx, contains_filter_ne_self, lookupKV_eraseKey_self]
        · by_cases hfe2 : isAlreadyFinishedErr e2 = true <;>
            simp only [hfe2, if_true, if_false, Bool.false_eq_true] at h ⊢
          · simp [cleanupTx, contains_filter_ne_self, lookupKV_eraseKey_self]
          · simp at h
      · simp at h
  · simp only [hc, Bool.false_eq_true, if_false] at h ⊢
    by_cases hdb : s.hasDB = true <;>
      simp only [hdb, if_true, Bool.false_eq_true, if_false] at h ⊢
    · rcases hie : db.idemCommitUpdErr with _ | e1 <;>
        simp only [hie] at h ⊢
      · simp only [Bool.not_eq_true] at hc
        have hmem : ¬txID ∈ s.pendingTx := by
          simpa using hc
        simp [cleanupTx, lookupKV_eraseKey_self, hc, hmem, hdb]
      · simp at h
    · simp only [Bool.not_eq_true] at hc
      have hmem : ¬txID ∈ s.pendingTx := by
        simpa using hc
      have hdb' : s.hasDB = false := by
        simpa using hdb
      simp [cleanupTx, lookupKV_eraseKey_self, hc, hmem, hdb']

theorem nodeAbort_ok_post (db : DBBehavior) (s : NodeState) (txID : String)
    (h : (nodeAbort db s txID).1 = none) :
    (nodeAbort db s txID).2.1.pendingTx.contains txID = false ∧
    lookupKV (nodeAbort db s txID).2.1.pendingData txID = none ∧
    (nodeAbort db s txID).2.1.txState = TxState.ABORT ∧
    (nodeAbort db s txID).2.1.hasDB = s.hasDB := by
  unfold nodeAbort at h ⊢
  by_cases hc : s.pendingTx.contains txID = true
  · rcases hre : db.rollbackErr with _ | e1 <;>
      simp only [hre, hc, if_true] at h ⊢
    · simp [cleanupTx, contains_filter_ne_self, lookupKV_eraseKey_self]
    · by_cases hfe : isAlreadyFinishedErr e1 = true <;>
        simp only [hfe, if_true, if_false, Bool.false_eq_true] at h ⊢
      · simp [cleanupTx, contains_filter_ne_self, lookupKV_eraseKey_self]
      · simp at h
  · simp only [hc, Bool.false_eq_true, if_false] at h ⊢
    by_cases hdb : s.hasDB = true <;>
      simp only [hdb, if_true, Bool.false_eq_true, if_false] at h ⊢
    · rcases hie : db.idemAbortUpdErr with _ | e1 <;>
        simp only [hie] at h ⊢
      · simp only [Bool.not_eq_true] at hc
        have hmem : ¬txID ∈ s.pendingTx := by
          simpa using hc
        simp [cleanupTx, lookupKV_eraseKey_self, hc, hmem, hdb]
      · simp at h
    · simp only [Bool.not_eq_true] at hc
      have hmem : ¬txID ∈ s.pendingTx := by
        simpa using hc
      have hdb' : s.hasDB = false := by
        simpa using hdb
      simp [cleanupTx, lookupKV_eraseKey_self, hc, hmem, hdb']

theorem nodeCommit_replay (db : DBBehavior) (t : NodeState) (txID : String)
    (h1 : t.pendingTx.contains txID = false)
    (h2 : lookupKV t.pendingData txID = none)
    (h3 : t.txState = TxState.COMMIT)
    (h4 : t.hasDB = true → db.idemCommitUpdErr = none) :
    nodeCommit db t txID =
      (none, t,
        if t.hasDB then [DBEffect.auditMarkCommitted txID] else []) := by
  have h1' : ¬txID ∈ t.pendingTx := by
    simpa using h1
  have hcl := cleanupTx_self t txID TxState.COMMIT h2 h3
  unfold nodeCommit
  by_cases hdb : t.hasDB = true
  · simp [h1', hdb, h4 hdb, hcl]
  · simp [h1', hdb, hcl]

theorem nodeAbort_replay (db : DBBehavior) (t : NodeState) (txID : String)
    (h1 : t.pendingTx.contains txID = false)
    (h2 : lookupKV t.pendingData txID = none)
    (h3 : t.txState = TxState.ABORT)
    (h4 : t.hasDB = true → db.idemAbortUpdErr = none) :
    nodeAbort db t txID =
      (none, t,
        if t.hasDB then [DBEffect.auditMarkAborted txID] else []) := by
  have h1' : ¬txID ∈ t.pendingTx := by
    simpa using h1
  have hcl := cleanupTx_self t txID TxState.ABORT h2 h3
  unfold nodeAbort
  by_cases hdb : t.hasDB = true
  · simp [h1', hdb, h4 hdb, hcl]
  · simp [h1', hdb, hcl]

theorem partAbort_ok_post (db : DBBehavior) (p : PartState) (txID : String)
    (h : (partAbort db p txID).1.success = true) :
    lookupKV (partAbort db p txID).2.1.txs txID = none := by
  unfold partAbort at h ⊢
  rcases hl : lookupKV p.txs txID with _ | st
  · simp [hl]
  · simp only [hl] at h ⊢
    rcases he : (nodeAbort db p.node txID).1 with _ | e
    · simp only [he] at h ⊢
      exact lookupKV_eraseKey_self _ _
    · simp only [he] at h
      simp at h

/-- Claim C6 (amended): at the node layer, Commit and Abort are idempotent —
once a Commit (resp. Abort) with a given id has completed with a nil error,
the pending entries for that id are gone and every repeated Commit (resp.
Abort) with the same id is a no-op on the state returning a nil error
(assuming the idempotent audit update succeeds). `Participant.Abort` is
likewise idempotent, answering `Success = true` on a replay. Contrary to the
original claim, a repeated `Participant.Commit` is NOT a success: it answers
`Success = false` with error `"Transaction not found"`. -/
theorem partAbort_replay (db : DBBehavior) (p : PartState) (txID : String)
    (h : lookupKV p.txs txID = none) :
    partAbort db p txID = ({ success := true, error := "" }, p, []) := by
  unfold partAbort
  simp [h]

theorem c6_commit_abort_idempotent (db db2 : DBBehavior) (s s2 : NodeState)
    (p : PartState) (txID : String)
    (hc1 : (nodeCommit db s txID).1 = none)
    (hc2 : db2.idemCommitUpdErr = none)
    (ha1 : (nodeAbort db s2 txID).1 = none)
    (ha2 : db2.idemAbortUpdErr = none)
    (hpa : (partAbort db p txID).1.success = true) :
    nodeCommit db2 (nodeCommit db s txID).2.1 txID =
      (none, (nodeCommit db s txID).2.1,
        if (nodeCommit db s txID).2.1.hasDB
        then [DBEffect.auditMarkCommitted txID] else []) ∧
    nodeAbort db2 (nodeAbort db s2 txID).2.1 txID =
      (none, (nodeAbort db s2 txID).2.1,
        if (nodeAbort db s2 txID).2.1.hasDB
        then [DBEffect.auditMarkAborted txID] else []) ∧
    partAbort db2 (partAbort db p txID).2.1 txID =
      ({ success := true, error := "" }, (partAbort db p txID).2.1, []) := by
  obtain ⟨hc1', hc2', hc3', _⟩ := nodeCommit_ok_post db s txID hc1
  obtain ⟨ha1', ha2', ha3', _⟩ := nodeAbort_ok_post db s2 txID ha1
  have hp' := partAbort_ok_post db p txID hpa
  refine ⟨?_, ?_, ?_⟩
  · exact nodeCommit_replay db2 _ txID hc1' hc2' hc3' (fun _ => hc2)
  · exact nodeAbort_replay db2 _ txID ha1' ha2' ha3' (fun _ => ha2)
  · exact partAbort_replay db2 _ txID hp'

/-- Fixture node holding transaction `t1` ready with an open handle. -/
def fixReadyDBNode : NodeState :=
  { newNode "n3" NodeRole.SLAVE with
      hasDB := true
      pendingTx := ["t1"]
      pendingData := [("t1", fixAction)]
      txState := TxState.READY }

/-- Fixture in-memory node (no database) with `t1` ready. -/
def fixReadyMemNode : NodeState :=
  { newNode "n4" NodeRole.SLAVE with
      pendingData := [("t1", fixAction)]
      txState := TxState.READY }

/-- Fixture participant wrapping an in-memory node with `t1` ready. -/
def fixReadyPart : PartState :=
  { node := fixReadyMemNode, txs := [("t1", TxState.READY)] }

/-- Witness for C6: concrete first commit / abort, then the replays. -/
theorem c6_witness :
    nodeCommit {} (nodeCommit {} fixReadyDBNode "t1").2.1 "t1" =
      (none, (nodeCommit {} fixReadyDBNode "t1").2.1,
        [DBEffect.auditMarkCommitted "t1"]) ∧
    partAbort {} (partAbort {} fixReadyPart "t1").2.1 "t1" =
      ({ success := true, error := "" }, (partAbort {} fixReadyPart "t1").2.1,
        []) := by
  have h := c6_commit_abort_idempotent {} {} fixReadyDBNode fixReadyDBNode
    fixReadyPart "t1" (by decide) rfl (by decide) rfl (by decide)
  refine ⟨?_, h.2.2⟩
  have := h.1
  simpa using this

/-- Counterexample to C6 as stated: after a first successful
`Participant.Commit` of `t1`, the repeated `Participant.Commit` answers
`Success = false` with error `"Transaction not found"` — not a success. -/
theorem c6_counterexample :
    (partCommit {} fixReadyPart "t1").1.success = true ∧
    (partCommit {} (partCommit {} fixReadyPart "t1").2.1 "t1").1 =
      { success := false, error := "Transaction not found" } := by
  decide

/-! ### Claim C8: Execute with no participants -/

/-- Claim C8 (amended): when the live follower snapshot is empty and no local
node participates, `Execute` returns a failed response carrying the fresh
transaction id with error `"No participants available"` (the specification
misquotes the message as `"no participants"`), and issues no Prepare, Commit
or Abort call to anyone. -/
theorem c8_no_participants (txID : String) (env : ExecEnv)
    (h1 : env.remotes = []) (h2 : env.includeLocal = false) :
    coordExecute txID env =
      ({ transactionID := txID, success := false, message := "",
         error := "No participants available" }, []) := by
  unfold coordExecute
  simp [h1, h2]

/-- Fixture environment with no remotes and no local participant. -/
def fixEmptyEnv : ExecEnv :=
  { includeLocal := false, localAddr := "l", localPrepare := (true, none),
    localCommitErr := none, localAbortErr := none, remotes := [] }

/-- Counterexample to C8 as stated: the error field of the response is the
string `"No participants available"`, not `"no participants"`. -/
theorem c8_counterexample :
    (coordExecute "tx-1" fixEmptyEnv).1.error = "No participants available" ∧
    ¬(coordExecute "tx-1" fixEmptyEnv).1.error = "no participants" ∧
    (coordExecute "tx-1" fixEmptyEnv).1.success = false ∧
    (coordExecute "tx-1" fixEmptyEnv).1.transactionID = "tx-1" ∧
    (coordExecute "tx-1" fixEmptyEnv).2 = [] := by
  decide

/-- Witness for C8 at the concrete empty environment. -/
theorem c8_witness :
    coordExecute "tx-2" fixEmptyEnv =
      ({ transactionID := "tx-2", success := false, message := "",
         error := "No participants available" }, []) :=
  c8_no_participants "tx-2" fixEmptyEnv rfl rfl

/-! ### Claims C1 and C2: commit phase and abort phase of Execute -/

theorem prepare_all_ok (env : ExecEnv)
    (h : (prepareTransaction env).1.failedNodes = []) :
    (prepareTransaction env).1.localPrepared = env.includeLocal ∧
    (prepareTransaction env).1.preparedRemotes =
      env.remotes.map (fun r => r.addr) ∧
    (prepareTransaction env).1.includeLocal = env.includeLocal := by
  unfold prepareTransaction at h ⊢
  by_cases hl : env.includeLocal = true <;>
    [skip; simp only [hl, Bool.false_eq_true, if_false] at h ⊢]
  · by_cases hp : env.localPrepare.1 = true ∧ env.localPrepare.2 = none
    · simp only [hl, if_true, if_pos hp] at h ⊢
      simp only [List.nil_append] at h
      have hall : ∀ p ∈ env.remotes.map
          (fun r => (r.addr, remotePrepareSuccess r)), p.2 = true := by
        intro p hp'
        by_contra hne
        have hmem : p ∈ (env.remotes.map
            (fun r => (r.addr, remotePrepareSuccess r))).filter
              (fun p => !p.2) := by
          refine List.mem_filter.mpr ⟨hp', ?_⟩
          simp [Bool.not_eq_true] at hne
          simp [hne]
        rw [List.map_eq_nil_iff] at h
        rw [h] at hmem
        simp at hmem
      refine ⟨by trivial, ?_, by trivial⟩
      rw [List.filter_eq_self.mpr (by
        intro a ha
        exact hall a ha)]
      simp
    · simp only [hl, if_true, if_neg hp] at h
      simp at h
  · simp only [List.nil_append] at h
    have hall : ∀ p ∈ env.remotes.map
        (fun r => (r.addr, remotePrepareSuccess r)), p.2 = true := by
      intro p hp'
      by_contra hne
      have hmem : p ∈ (env.remotes.map
          (fun r => (r.addr, remotePrepareSuccess r))).filter
            (fun p => !p.2) := by
        refine List.mem_filter.mpr ⟨hp', ?_⟩
        simp [Bool.not_eq_true] at hne
        simp [hne]
      rw [List.map_eq_nil_iff] at h
      rw [h] at hmem
      simp at hmem
    have hb : env.includeLocal = false := by
      simpa using hl
    refine ⟨by trivial, ?_, by trivial⟩
    rw [List.filter_eq_self.mpr (by
      intro a ha
      exact hall a ha)]
    simp

theorem commitTransaction_success (env : ExecEnv) (o : PrepOutcome)
    (hinc : o.includeLocal = env.includeLocal)
    (hlp : o.localPrepared = env.includeLocal) :
    ((commitTransaction env o).1.1 = true ↔
      ((env.includeLocal = true → env.localCommitErr = none) ∧
        ∀ a ∈ o.preparedRemotes, remoteCommitSuccess env a = true)) := by
  unfold commitTransaction
  by_cases hl : env.includeLocal = true
  · simp [hinc, hlp, hl, List.all_eq_true, Option.isNone_iff_eq_none]
  · have hb : env.includeLocal = false := by
      simpa using hl
    simp [hinc, hlp, hb, List.all_eq_true]

theorem mem_prepareTransaction_fx (env : ExecEnv) (e : CoordEffect)
    (he : e ∈ (prepareTransaction env).2) :
    e = CoordEffect.localPrepare ∨ ∃ a, e = CoordEffect.remotePrepare a := by
  unfold prepareTransaction at he
  simp only [List.mem_append] at he
  rcases he with he | he
  · by_cases hl : env.includeLocal = true
    · by_cases hp : env.localPrepare.1 = true ∧ env.localPrepare.2 = none <;>
        simp only [hl, if_true, if_pos, if_neg, hp] at he <;>
        simp at he <;> exact Or.inl he
    · simp only [hl, Bool.false_eq_true, if_false] at he
      simp at he
  · right
    simp only [List.mem_map] at he
    obtain ⟨r, _, hr⟩ := he
    exact ⟨r.addr, hr.symm⟩

theorem mem_commitTransaction_fx (env : ExecEnv) (o : PrepOutcome)
    (e : CoordEffect) (he : e ∈ (commitTransaction env o).2) :
    e = CoordEffect.localCommit ∨ ∃ a, e = CoordEffect.remoteCommit a := by
  unfold commitTransaction at he
  simp only [List.mem_append] at he
  rcases he with he | he
  · by_cases hp : o.includeLocal = true ∧ o.localPrepared = true <;>
      simp only [if_pos, if_neg, hp] at he <;> simp at he
    exact Or.inl he
  · right
    simp only [List.mem_map] at he
    obtain ⟨a, _, ha⟩ := he
    exact ⟨a, ha.symm⟩

theorem coordExecute_commit_eq (txID : String) (env : ExecEnv)
    (hpos : ¬(env.remotes.length + (if env.includeLocal then 1 else 0) = 0))
    (hprep : (prepareTransaction env).1.failedNodes = []) :
    coordExecute txID env =
      (if (commitTransaction env (prepareTransaction env).1).1.1 then
        { transactionID := txID, success := true,
          message := "Transaction committed on " ++
            toString (commitTransaction env (prepareTransaction env).1).1.2 ++
            " nodes", error := "" }
      else
        { transactionID := txID, success := false, message := "",
          error := "Some commits failed" },
      (prepareTransaction env).2 ++
        (commitTransaction env (prepareTransaction env).1).2) := by
  unfold coordExecute
  simp [hpos, hprep]
  split <;> rfl

/-- Claim C1: when every participant prepared successfully, Execute returns
`Success = true` exactly when the local commit (when a local node is
included) and every remote Commit call to the prepared participants reported
success; when some commit failed the response is `Success = false` with error
`"Some commits failed"`, and in either case no abort (local or remote) is
issued. -/
theorem c1_commit_phase_semantics (txID : String) (env : ExecEnv)
    (hpos : ¬(env.remotes.length + (if env.includeLocal then 1 else 0) = 0))
    (hprep : (prepareTransaction env).1.failedNodes = []) :
    ((coordExecute txID env).1.success = true ↔
      ((env.includeLocal = true → env.localCommitErr = none) ∧
        ∀ a ∈ env.remotes.map (fun r => r.addr),
          remoteCommitSuccess env a = true)) ∧
    ((coordExecute txID env).1.success = false →
      (coordExecute txID env).1.error = "Some commits failed") ∧
    (∀ a, CoordEffect.remoteAbort a ∉ (coordExecute txID env).2) ∧
    CoordEffect.localAbort ∉ (coordExecute txID env).2 := by
  obtain ⟨hlp, hpr, hinc⟩ := prepare_all_ok env hprep
  have hiff := commitTransaction_success env (prepareTransaction env).1 hinc hlp
  rw [hpr] at hiff
  rw [coordExecute_commit_eq txID env hpos hprep]
  refine ⟨?_, ?_, ?_, ?_⟩
  · by_cases hcs : (commitTransaction env (prepareTransaction env).1).1.1 = true
    · simp only [hcs, if_true]
      constructor
      · intro _
        exact hiff.mp hcs
      · intro _
        trivial
    · have hcs' : (commitTransaction env (prepareTransaction env).1).1.1 = false := by
        simpa using hcs
      simp only [hcs', Bool.false_eq_true, if_false]
      constructor
      · intro h'
        simp at h'
      · intro hR
        exact absurd (hiff.mpr hR) (by simp [hcs'])
  · by_cases hcs : (commitTransaction env (prepareTransaction env).1).1.1 = true
    · simp [hcs]
    · have hcs' : (commitTransaction env (prepareTransaction env).1).1.1 = false := by
        simpa using hcs
      simp [hcs']
  · intro a hmem
    rcases List.mem_append.mp hmem with hm | hm
    · rcases mem_prepareTransaction_fx env _ hm with h' | ⟨b, h'⟩ <;> simp at h'
    · rcases mem_commitTransaction_fx env _ _ hm with h' | ⟨b, h'⟩ <;>
        simp at h'
  · intro hmem
    rcases List.mem_append.mp hmem with hm | hm
    · rcases mem_prepareTransaction_fx env _ hm with h' | ⟨b, h'⟩ <;> simp at h'
    · rcases mem_commitTransaction_fx env _ _ hm with h' | ⟨b, h'⟩ <;>
        simp at h'

/-- Fixture remote participant whose endpoints all succeed. -/
def fixRemoteOK : RemoteBehavior :=
  { addr := "r1", prepareR := .ok { status := PrepareStatus.READY, error := "" },
    commitR := .ok { success := true, error := "" },
    abortR := .ok { success := true, error := "" } }

/-- Fixture environment: local node plus one healthy remote. -/
def fixEnvOK : ExecEnv :=
  { includeLocal := true, localAddr := "local:0", localPrepare := (true, none),
    localCommitErr := none, localAbortErr := none, remotes := [fixRemoteOK] }

/-- Witness for C1: in the all-healthy environment Execute succeeds and
issues no abort. -/
theorem c1_witness :
    (coordExecute "t1" fixEnvOK).1.success = true ∧
    CoordEffect.localAbort ∉ (coordExecute "t1" fixEnvOK).2 := by
  have h := c1_commit_phase_semantics "t1" fixEnvOK (by decide) (by decide)
  exact ⟨h.1.mpr (by decide), h.2.2.2⟩

theorem coordExecute_abort_eq (txID : String) (env : ExecEnv)
    (hpos : ¬(env.remotes.length + (if env.includeLocal then 1 else 0) = 0))
    (hfail : (prepareTransaction env).1.failedNodes ≠ []) :
    coordExecute txID env =
      ({ transactionID := txID, success := false, message := "",
         error := "Prepare failed for nodes: " ++
           goFmtStrings (prepareTransaction env).1.failedNodes },
        (prepareTransaction env).2 ++
          abortTransaction (prepareTransaction env).1
            (env.remotes.map (fun r => r.addr))) := by
  unfold coordExecute
  simp [hpos, hfail]

theorem remotePrepare_mem_fx (env : ExecEnv) (r : RemoteBehavior)
    (hr : r ∈ env.remotes) :
    CoordEffect.remotePrepare r.addr ∈ (prepareTransaction env).2 := by
  unfold prepareTransaction
  simp only [List.mem_append, List.mem_map]
  right
  exact ⟨r, hr, rfl⟩

theorem mem_abortTransaction_fx (o : PrepOutcome) (addrs : List String)
    (e : CoordEffect) (he : e ∈ abortTransaction o addrs) :
    e = CoordEffect.localAbort ∨ ∃ a, e = CoordEffect.remoteAbort a := by
  unfold abortTransaction at he
  simp only [List.mem_append] at he
  rcases he with he | he
  · by_cases hp : o.includeLocal = true ∧ o.localPrepared = true <;>
      simp only [if_pos, if_neg, hp] at he <;> simp at he
    exact Or.inl he
  · right
    simp only [List.mem_map] at he
    obtain ⟨a, _, ha⟩ := he
    exact ⟨a, ha.symm⟩

/-- Claim C2 (amended): when at least one Prepare fails, Execute issues an
Abort to every REMOTE participant that was sent a Prepare request — prepared
or not — while the local node receives an Abort only when its own in-process
Prepare succeeded (a local node whose Prepare failed receives no Abort,
contrary to the original claim); no Commit is issued, and the response is
`Success = false` with an error naming the failed addresses. -/
theorem c2_abort_phase_semantics (txID : String) (env : ExecEnv)
    (hpos : ¬(env.remotes.length + (if env.includeLocal then 1 else 0) = 0))
    (hfail : (prepareTransaction env).1.failedNodes ≠ []) :
    (∀ r ∈ env.remotes,
      CoordEffect.remotePrepare r.addr ∈ (coordExecute txID env).2 ∧
      CoordEffect.remoteAbort r.addr ∈ (coordExecute txID env).2) ∧
    ((env.includeLocal = true ∧
        (prepareTransaction env).1.localPrepared = true) →
      CoordEffect.localAbort ∈ (coordExecute txID env).2) ∧
    (coordExecute txID env).1.success = false ∧
    (coordExecute txID env).1.error =
      "Prepare failed for nodes: " ++
        goFmtStrings (prepareTransaction env).1.failedNodes ∧
    (∀ a, CoordEffect.remoteCommit a ∉ (coordExecute txID env).2) ∧
    CoordEffect.localCommit ∉ (coordExecute txID env).2 := by
  rw [coordExecute_abort_eq txID env hpos hfail]
  have hinc : (prepareTransaction env).1.includeLocal = env.includeLocal := by
    unfold prepareTransaction
    rfl
  refine ⟨?_, ?_, rfl, rfl, ?_, ?_⟩
  · intro r hr
    constructor
    · exact List.mem_append.mpr (Or.inl (remotePrepare_mem_fx env r hr))
    · refine List.mem_append.mpr (Or.inr ?_)
      unfold abortTransaction
      refine List.mem_append.mpr (Or.inr ?_)
      simp only [List.mem_map]
      exact ⟨r.addr, ⟨r, hr, rfl⟩, rfl⟩
  · intro ⟨hl, hlp⟩
    refine List.mem_append.mpr (Or.inr ?_)
    unfold abortTransaction
    refine List.mem_append.mpr (Or.inl ?_)
    rw [if_pos ⟨hinc.trans hl, hlp⟩]
    simp
  · intro a hmem
    rcases List.mem_append.mp hmem with hm | hm
    · rcases mem_prepareTransaction_fx env _ hm with h' | ⟨b, h'⟩ <;> simp at h'
    · rcases mem_abortTransaction_fx _ _ _ hm with h' | ⟨b, h'⟩ <;> simp at h'
  · intro hmem
    rcases List.mem_append.mp hmem with hm | hm
    · rcases mem_prepareTransaction_fx env _ hm with h' | ⟨b, h'⟩ <;> simp at h'
    · rcases mem_abortTransaction_fx _ _ _ hm with h' | ⟨b, h'⟩ <;> simp at h'

/-- Fixture environment: the local node fails its own Prepare while the
single remote is healthy. -/
def fixEnvLocalFail : ExecEnv :=
  { includeLocal := true, localAddr := "local:0",
    localPrepare := (false, some "boom"), localCommitErr := none,
    localAbortErr := none, remotes := [fixRemoteOK] }

/-- Counterexample to C2 as stated: the local node was sent a Prepare (the
`localPrepare` call is in the trace) and the decision is abort, yet no local
Abort is issued — so not every participant that received a prepare receives
an abort. -/
theorem c2_counterexample :
    CoordEffect.localPrepare ∈ (coordExecute "t1" fixEnvLocalFail).2 ∧
    CoordEffect.localAbort ∉ (coordExecute "t1" fixEnvLocalFail).2 ∧
    (coordExecute "t1" fixEnvLocalFail).1.success = false := by
  decide

/-- Fixture remote whose Prepare times out (transport error). -/
def fixRemoteBad : RemoteBehavior :=
  { addr := "r2", prepareR := .error "context deadline exceeded",
    commitR := .ok { success := true, error := "" },
    abortR := .ok { success := true, error := "" } }

/-- Fixture environment: healthy local and remote `r1`, timing-out `r2`. -/
def fixEnvPrepFail : ExecEnv :=
  { includeLocal := true, localAddr := "local:0", localPrepare := (true, none),
    localCommitErr := none, localAbortErr := none,
    remotes := [fixRemoteOK, fixRemoteBad] }

/-- Witness for C2: with one remote prepare failing, every remote receives an
abort — including the healthy one — and the prepared local node aborts too. -/
theorem c2_witness :
    CoordEffect.remoteAbort "r1" ∈ (coordExecute "t1" fixEnvPrepFail).2 ∧
    CoordEffect.remoteAbort "r2" ∈ (coordExecute "t1" fixEnvPrepFail).2 ∧
    CoordEffect.localAbort ∈ (coordExecute "t1" fixEnvPrepFail).2 ∧
    (coordExecute "t1" fixEnvPrepFail).1.success = false := by
  have h := c2_abort_phase_semantics "t1" fixEnvPrepFail (by decide) (by decide)
  exact ⟨(h.1 fixRemoteOK (by decide)).2, (h.1 fixRemoteBad (by decide)).2,
    h.2.1 ⟨rfl, by decide⟩, h.2.2.1⟩

/-! ### Claim C9: statement construction -/

/-- An identifier `safeIdent` accepts. -/
def ValidIdent (c : String) : Prop :=
  ¬c = "" ∧ c.toList.all identChar = true

instance : DecidablePred ValidIdent := fun c =>
  decidable_of_iff (¬c = "" ∧ c.toList.all identChar = true) Iff.rfl

theorem safeIdent_ok (c : String) (h : ValidIdent c) :
    safeIdent c = Except.ok (goToLower c) := by
  unfold safeIdent
  rw [if_neg h.1, if_pos h.2]

theorem mapM_safeIdent (cols : List String)
    (h : ∀ c ∈ cols, ValidIdent c) :
    cols.mapM safeIdent = Except.ok (cols.map goToLower) := by
  induction cols with
  | nil => rfl
  | cons c cs ih =>
    rw [List.mapM_cons, safeIdent_ok c (h c (by simp)),
      ih (fun x hx => h x (by simp [hx]))]
    rfl

theorem sortedKeys_sorted (m : List (String × GoVal)) :
    List.Sorted StrLe (sortedKeys m) :=
  List.sorted_insertionSort _ _

theorem sortedKeys_perm (m : List (String × GoVal)) :
    (sortedKeys m).Perm (m.map Prod.fst) :=
  List.perm_insertionSort _ _

theorem sortedKeys_congr (m m' : List (String × GoVal)) (h : m.Perm m') :
    sortedKeys m = sortedKeys m' :=
  List.eq_of_perm_of_sorted
    ((sortedKeys_perm m).trans ((h.map Prod.fst).trans (sortedKeys_perm m').symm))
    (sortedKeys_sorted m) (sortedKeys_sorted m')

theorem lookupKV_congr (m m' : List (String × GoVal)) (k : String)
    (h : m.Perm m') (hnd : (m.map Prod.fst).Nodup) :
    lookupKV m k = lookupKV m' k := by
  induction h with
  | nil => rfl
  | cons x h ih =>
    rw [lookupKV_cons, lookupKV_cons]
    simp only [List.map_cons, List.nodup_cons] at hnd
    by_cases hx : x.1 = k
    · simp [hx]
    · simp only [if_neg hx]
      exact ih hnd.2
  | swap x y l =>
    rw [lookupKV_cons, lookupKV_cons, lookupKV_cons, lookupKV_cons]
    simp only [List.map_cons, List.nodup_cons] at hnd
    have hxy : ¬y.1 = x.1 := by
      intro he
      exact hnd.1 (by
        rw [he]
        exact List.mem_cons_self _ _)
    by_cases hy : y.1 = k
    · have hx : ¬x.1 = k := by
        intro hxk
        exact hxy (by rw [hy, hxk])
      simp [hy, hx]
    · by_cases hx : x.1 = k
      · simp [hy, hx]
      · simp [hy, hx]
  | trans p1 p2 ih1 ih2 =>
    rw [ih1 hnd, ih2 ((p1.map Prod.fst).nodup_iff.mp hnd)]
theorem buildInsert_congr (t : String) (values values2 : List (String × GoVal))
    (hv : values.Perm values2) (hnd : (values.map Prod.fst).Nodup) :
    buildInsert t values2 = buildInsert t values := by
  unfold buildInsert
  rw [sortedKeys_congr values2 values hv.symm,
    show (fun c => (lookupKV values2 c).getD GoVal.vnull) =
        (fun c => (lookupKV values c).getD GoVal.vnull) from
      funext (fun c => by rw [lookupKV_congr values values2 c hv hnd])]

theorem buildUpdate_congr (t : String)
    (values values2 whereKV whereKV2 : List (String × GoVal))
    (hv : values.Perm values2) (hw : whereKV.Perm whereKV2)
    (hnd : (values.map Prod.fst).Nodup)
    (hndW : (whereKV.map Prod.fst).Nodup) :
    buildUpdate t values2 whereKV2 = buildUpdate t values whereKV := by
  unfold buildUpdate
  rw [sortedKeys_congr values2 values hv.symm,
    sortedKeys_congr whereKV2 whereKV hw.symm,
    show (fun c => (lookupKV values2 c).getD GoVal.vnull) =
        (fun c => (lookupKV values c).getD GoVal.vnull) from
      funext (fun c => by rw [lookupKV_congr values values2 c hv hnd]),
    show (fun c => (lookupKV whereKV2 c).getD GoVal.vnull) =
        (fun c => (lookupKV whereKV c).getD GoVal.vnull) from
      funext (fun c => by rw [lookupKV_congr whereKV whereKV2 c hw hndW])]

theorem applySQLAction_congr (table op : String)
    (values values2 whereKV whereKV2 : List (String × GoVal))
    (hv : values.Perm values2) (hw : whereKV.Perm whereKV2)
    (hnd : (values.map Prod.fst).Nodup)
    (hndW : (whereKV.map Prod.fst).Nodup) :
    applySQLAction (SQLAction.mk table op values2 whereKV2) =
      applySQLAction (SQLAction.mk table op values whereKV) := by
  unfold applySQLAction
  rcases hsi : safeIdent table with e | t
  · rfl
  · by_cases hio : op = "INSERT"
    · simp [hio, Bind.bind, Except.bind,
        buildInsert_congr t values values2 hv hnd]
    · by_cases huo : op = "UPDATE"
      · simp [hio, huo, Bind.bind, Except.bind,
          buildUpdate_congr t values values2 whereKV whereKV2 hv hw hnd hndW]
      · simp [hio, huo]

theorem buildInsert_ok (t : String) (values : List (String × GoVal))
    (hks : ∀ c ∈ sortedKeys values, ValidIdent c) :
    buildInsert t values =
      Except.ok ("INSERT INTO \"" ++ t ++ "\" (" ++
        String.intercalate ","
          ((sortedKeys values).map (fun c => "\"" ++ goToLower c ++ "\"")) ++
        ") VALUES (" ++
        String.intercalate ","
          ((List.range (sortedKeys values).length).map
            (fun i => placeholder (i + 1))) ++ ")",
        (sortedKeys values).map
          (fun c => (lookupKV values c).getD GoVal.vnull)) := by
  unfold buildInsert
  simp only [mapM_safeIdent _ hks]
  simp [Bind.bind, Except.bind, List.map_map, Function.comp_def]

theorem buildUpdate_ok (t : String) (values whereKV : List (String × GoVal))
    (hknv : ∀ c ∈ sortedKeys values, ValidIdent c)
    (hknw : ∀ c ∈ sortedKeys whereKV, ValidIdent c)
    (hwne : whereKV ≠ []) :
    buildUpdate t values whereKV =
      Except.ok ("UPDATE \"" ++ t ++ "\" SET " ++
        String.intercalate ","
          (((sortedKeys values).zip
              (List.range (sortedKeys values).length)).map
            (fun p => "\"" ++ goToLower p.1 ++ "\"=" ++ placeholder (p.2 + 1))) ++
        " WHERE " ++
        String.intercalate " AND "
          (((sortedKeys whereKV).zip
              (List.range (sortedKeys whereKV).length)).map
            (fun p => "\"" ++ goToLower p.1 ++ "\"=" ++
              placeholder ((sortedKeys values).length + p.2 + 1))),
        (sortedKeys values).map
            (fun c => (lookupKV values c).getD GoVal.vnull) ++
          (sortedKeys whereKV).map
            (fun c => (lookupKV whereKV c).getD GoVal.vnull)) := by
  have hlen : ¬(sortedKeys whereKV).length = 0 := by
    intro h0
    apply hwne
    have hpl := (sortedKeys_perm whereKV).length_eq
    rw [h0] at hpl
    have hmapnil : whereKV.map Prod.fst = [] :=
      List.eq_nil_of_length_eq_zero hpl.symm
    exact List.map_eq_nil_iff.mp hmapnil
  unfold buildUpdate
  simp only [if_neg hlen, mapM_safeIdent _ hknv, mapM_safeIdent _ hknw]
  simp [Bind.bind, Except.bind, List.zip_map_left, List.map_map,
    Function.comp_def, Prod.map_fst, Prod.map_snd]

/-- Claim C9: statement construction is deterministic and order-independent.
The columns of an INSERT are the keys of `values` in ascending sorted order
(each validated, lower-cased and double-quoted), the placeholders are the
1-based positional markers and the bound arguments follow the same sorted
order; an UPDATE builds SET clauses from the sorted keys of `values` followed
by WHERE clauses from the sorted keys of `where` joined by AND, all values
bound positionally in that order; and permuting the entries of `values` /
`where` leaves the generated statement and argument list unchanged. -/
theorem c9_statement_construction (table : String)
    (values whereKV values2 whereKV2 : List (String × GoVal))
    (hv : values.Perm values2) (hw : whereKV.Perm whereKV2)
    (hnd : (values.map Prod.fst).Nodup) (hndW : (whereKV.map Prod.fst).Nodup)
    (htab : ValidIdent table)
    (hks : ∀ c ∈ values.map Prod.fst, ValidIdent c)
    (hkw : ∀ c ∈ whereKV.map Prod.fst, ValidIdent c)
    (hwne : whereKV ≠ []) :
    List.Sorted StrLe (sortedKeys values) ∧
    (sortedKeys values).Perm (values.map Prod.fst) ∧
    (∀ op, applySQLAction (SQLAction.mk table op values2 whereKV2) =
      applySQLAction (SQLAction.mk table op values whereKV)) ∧
    applySQLAction (SQLAction.mk table "INSERT" values whereKV) =
      Except.ok ("INSERT INTO \"" ++ goToLower table ++ "\" (" ++
        String.intercalate ","
          ((sortedKeys values).map (fun c => "\"" ++ goToLower c ++ "\"")) ++
        ") VALUES (" ++
        String.intercalate ","
          ((List.range (sortedKeys values).length).map
            (fun i => placeholder (i + 1))) ++ ")",
        (sortedKeys values).map
          (fun c => (lookupKV values c).getD GoVal.vnull)) ∧
    applySQLAction (SQLAction.mk table "UPDATE" values whereKV) =
      Except.ok ("UPDATE \"" ++ goToLower table ++ "\" SET " ++
        String.intercalate ","
          (((sortedKeys values).zip
              (List.range (sortedKeys values).length)).map
            (fun p => "\"" ++ goToLower p.1 ++ "\"=" ++ placeholder (p.2 + 1))) ++
        " WHERE " ++
        String.intercalate " AND "
          (((sortedKeys whereKV).zip
              (List.range (sortedKeys whereKV).length)).map
            (fun p => "\"" ++ goToLower p.1 ++ "\"=" ++
              placeholder ((sortedKeys values).length + p.2 + 1))),
        (sortedKeys values).map
            (fun c => (lookupKV values c).getD GoVal.vnull) ++
          (sortedKeys whereKV).map
            (fun c => (lookupKV whereKV c).getD GoVal.vnull)) := by
  have hksS : ∀ c ∈ sortedKeys values, ValidIdent c :=
    fun c hc => hks c ((sortedKeys_perm values).subset hc)
  have hkwS : ∀ c ∈ sortedKeys whereKV, ValidIdent c :=
    fun c hc => hkw c ((sortedKeys_perm whereKV).subset hc)
  refine ⟨sortedKeys_sorted values, sortedKeys_perm values,
    fun op => applySQLAction_congr table op values values2 whereKV whereKV2
      hv hw hnd hndW, ?_, ?_⟩
  · unfold applySQLAction
    rw [safeIdent_ok table htab]
    simpa [Bind.bind, Except.bind] using
      buildInsert_ok (goToLower table) values hksS
  · unfold applySQLAction
    rw [safeIdent_ok table htab]
    simpa [Bind.bind, Except.bind] using
      buildUpdate_ok (goToLower table) values whereKV hksS hkwS hwne

/-- Witness payload maps for C9: two key orders of the same map. -/
def fixValsA : List (String × GoVal) :=
  [("name", GoVal.vstr "Alice"), ("id", GoVal.vint 1)]

/-- Witness payload maps for C9: the other key order. -/
def fixValsB : List (String × GoVal) :=
  [("id", GoVal.vint 1), ("name", GoVal.vstr "Alice")]

/-- Witness where-map for C9. -/
def fixWhereA : List (String × GoVal) :=
  [("id", GoVal.vint 1)]

/-- Witness for C9: concrete INSERT and UPDATE statements for `users`, and
order-independence for the two key orders. -/
theorem c9_witness :
    applySQLAction (SQLAction.mk "users" "INSERT" fixValsA fixWhereA) =
      Except.ok ("INSERT INTO \"users\" (\"id\",\"name\") VALUES ($1,$2)",
        [GoVal.vint 1, GoVal.vstr "Alice"]) ∧
    applySQLAction (SQLAction.mk "users" "INSERT" fixValsB fixWhereA) =
      applySQLAction (SQLAction.mk "users" "INSERT" fixValsA fixWhereA) ∧
    applySQLAction (SQLAction.mk "users" "UPDATE" fixValsA fixWhereA) =
      Except.ok ("UPDATE \"users\" SET \"id\"=$1,\"name\"=$2 WHERE \"id\"=$3",
        [GoVal.vint 1, GoVal.vstr "Alice", GoVal.vint 1]) := by
  have h := c9_statement_construction "users" fixValsA fixWhereA fixValsB
    fixWhereA (by decide) (List.Perm.refl _) (by decide) (by decide)
    (by decide) (by decide) (by decide) (by decide)
  refine ⟨?_, h.2.2.1 "INSERT", ?_⟩
  · rw [h.2.2.2.1]
    rfl
  · rw [h.2.2.2.2]
    rfl

/-! ### Claims C3 and C4: election and the leader invariant -/

theorem goLeList_refl (a : List Char) : goLeList a a = true := by
  induction a with
  | nil => rfl
  | cons x xs ih =>
    unfold goLeList
    simp [ih]

theorem strLe_refl (a : String) : StrLe a a :=
  goLeList_refl a.data

theorem sortedHead_spec (l : List String) (hne : l ≠ []) :
    (List.insertionSort StrLe l).headD "" ∈ l ∧
    ∀ x ∈ l, StrLe ((List.insertionSort StrLe l).headD "") x := by
  have hperm := List.perm_insertionSort StrLe l
  have hsort := List.sorted_insertionSort StrLe l
  rcases hs : List.insertionSort StrLe l with _ | ⟨m, rest⟩
  · rw [hs] at hperm
    exact absurd hperm.symm.eq_nil hne
  · rw [hs] at hperm hsort
    constructor
    · exact hperm.subset (by simp)
    · intro x hx
      have hx' : x ∈ m :: rest := hperm.symm.subset hx
      rcases List.mem_cons.mp hx' with rfl | hxr
      · simpa using strLe_refl x
      · simpa using (List.sorted_cons.mp hsort).1 x hxr

theorem lookup_none_iff_not_mem_keys (l : List (String × α)) (k : String) :
    lookupKV l k = none ↔ ¬k ∈ keysOf l := by
  induction l with
  | nil => simp [lookupKV, keysOf]
  | cons x xs ih =>
    rw [lookupKV_cons]
    by_cases hx : x.1 = k
    · simp [keysOf, hx]
    · rw [if_neg hx, ih]
      simp only [keysOf, List.map_cons, List.mem_cons]
      constructor
      · intro h
        rintro (h1 | h2)
        · exact hx h1.symm
        · exact h h2
      · intro h h2
        exact h (Or.inr h2)

theorem lookup_isSome_of_mem_keys (l : List (String × α)) (k : String)
    (h : k ∈ keysOf l) : (lookupKV l k).isSome = true := by
  rcases ho : lookupKV l k with _ | v
  · exact absurd h ((lookup_none_iff_not_mem_keys l k).mp ho)
  · rfl

theorem lookup_some_mem (l : List (String × α)) (k : String) (v : α)
    (h : lookupKV l k = some v) : (k, v) ∈ l := by
  induction l with
  | nil => simp [lookupKV] at h
  | cons x xs ih =>
    rw [lookupKV_cons] at h
    by_cases hx : x.1 = k
    · rw [if_pos hx] at h
      have hv : x.2 = v := Option.some.inj h
      have hxkv : x = (k, v) := by
        obtain ⟨x1, x2⟩ := x
        simp only at hx hv
        rw [hx, hv]
      rw [← hxkv]
      exact List.mem_cons_self _ _
    · rw [if_neg hx] at h
      exact List.mem_cons_of_mem _ (ih h)

theorem keysOf_setRoleAll (ρ : NodeRole) (l : List (String × NodeRec)) :
    keysOf (setRoleAll ρ l) = keysOf l := by
  induction l with
  | nil => rfl
  | cons x xs ih => simp [keysOf, setRoleAll] at ih ⊢

theorem keysOf_setRoleOf (a : String) (ρ : NodeRole)
    (l : List (String × NodeRec)) : keysOf (setRoleOf a ρ l) = keysOf l := by
  induction l with
  | nil => rfl
  | cons x xs ih =>
    simp only [keysOf, setRoleOf, List.map_cons, List.map_map] at ih ⊢
    by_cases hx : x.1 = a <;> simp [hx, ih]

theorem keysOf_setAliveOf (a : String) (b : Bool)
    (l : List (String × NodeRec)) : keysOf (setAliveOf a b l) = keysOf l := by
  induction l with
  | nil => rfl
  | cons x xs ih =>
    simp only [keysOf, setAliveOf, List.map_cons, List.map_map] at ih ⊢
    by_cases hx : x.1 = a <;> simp [hx, ih]

theorem aliveAddrs_setRoleAll (ρ : NodeRole) (l : List (String × NodeRec)) :
    aliveAddrs (setRoleAll ρ l) = aliveAddrs l := by
  induction l with
  | nil => rfl
  | cons x xs ih =>
    simp only [aliveAddrs, setRoleAll, List.map_cons, List.filter_cons] at ih ⊢
    by_cases hb : x.2.alive <;> simp [hb, ih]

theorem aliveAddrs_setRoleOf (a : String) (ρ : NodeRole)
    (l : List (String × NodeRec)) :
    aliveAddrs (setRoleOf a ρ l) = aliveAddrs l := by
  induction l with
  | nil => rfl
  | cons x xs ih =>
    simp only [aliveAddrs, setRoleOf, List.map_cons, List.filter_cons] at ih ⊢
    by_cases hx : x.1 = a <;> by_cases hb : x.2.alive <;> simp [hx, hb, ih]

theorem lookup_setRoleAll (ρ : NodeRole) (l : List (String × NodeRec))
    (k : String) :
    lookupKV (setRoleAll ρ l) k =
      (lookupKV l k).map (fun r => { r with role := ρ }) := by
  induction l with
  | nil => rfl
  | cons x xs ih =>
    simp only [setRoleAll, List.map_cons] at ih ⊢
    rw [lookupKV_cons, lookupKV_cons]
    by_cases hx : x.1 = k
    · simp [hx]
    · simp [hx, ih]

theorem lookup_setRoleOf (a : String) (ρ : NodeRole)
    (l : List (String × NodeRec)) (k : String) :
    lookupKV (setRoleOf a ρ l) k =
      if k = a then (lookupKV l k).map (fun r => { r with role := ρ })
      else lookupKV l k := by
  induction l with
  | nil => simp [setRoleOf, lookupKV]
  | cons x xs ih =>
    simp only [setRoleOf, List.map_cons] at ih ⊢
    by_cases hx : x.1 = a
    · rw [if_pos hx, lookupKV_cons, lookupKV_cons]
      by_cases hk : x.1 = k
      · have hka : k = a := by
          rw [← hk, hx]
        simp [hk, hka]
      · have hka : ¬k = a := by
          intro he
          exact hk (by rw [hx, he])
        simp [hk, hka, ih]
    · rw [if_neg hx, lookupKV_cons, lookupKV_cons]
      by_cases hk : x.1 = k
      · have hka : ¬k = a := by
          intro he
          exact hx (by rw [hk, he])
        simp [hk, hka]
      · simp [hk, ih]

theorem lookup_setAliveOf (a : String) (b : Bool)
    (l : List (String × NodeRec)) (k : String) :
    lookupKV (setAliveOf a b l) k =
      if k = a then (lookupKV l k).map (fun r => { r with alive := b })
      else lookupKV l k := by
  induction l with
  | nil => simp [setAliveOf, lookupKV]
  | cons x xs ih =>
    simp only [setAliveOf, List.map_cons] at ih ⊢
    by_cases hx : x.1 = a
    · rw [if_pos hx, lookupKV_cons, lookupKV_cons]
      by_cases hk : x.1 = k
      · have hka : k = a := by
          rw [← hk, hx]
        simp [hk, hka]
      · have hka : ¬k = a := by
          intro he
          exact hk (by rw [hx, he])
        simp [hk, hka, ih]
    · rw [if_neg hx, lookupKV_cons, lookupKV_cons]
      by_cases hk : x.1 = k
      · have hka : ¬k = a := by
          intro he
          exact hx (by rw [hk, he])
        simp [hk, hka]
      · simp [hk, ih]

theorem masterCount_cons (x : String × NodeRec) (xs : List (String × NodeRec)) :
    masterCount (x :: xs) =
      masterCount xs + (if x.2.role == NodeRole.MASTER then 1 else 0) := by
  simp [masterCount, List.countP_cons]

theorem setRoleAll_cons (ρ : NodeRole) (x : String × NodeRec)
    (xs : List (String × NodeRec)) :
    setRoleAll ρ (x :: xs) = (x.1, { x.2 with role := ρ }) :: setRoleAll ρ xs :=
  rfl

theorem setRoleOf_cons (a : String) (ρ : NodeRole) (x : String × NodeRec)
    (xs : List (String × NodeRec)) :
    setRoleOf a ρ (x :: xs) =
      (if x.1 = a then (x.1, { x.2 with role := ρ }) else x) ::
        setRoleOf a ρ xs :=
  rfl

theorem keysOf_cons (x : String × α) (xs : List (String × α)) :
    keysOf (x :: xs) = x.1 :: keysOf xs :=
  rfl

theorem masterCount_setRoleAll_slave (l : List (String × NodeRec)) :
    masterCount (setRoleAll NodeRole.SLAVE l) = 0 := by
  induction l with
  | nil => rfl
  | cons x xs ih =>
    rw [setRoleAll_cons, masterCount_cons, ih]
    rfl

theorem masterCount_setRoleOf_slave_le (a : String)
    (l : List (String × NodeRec)) :
    masterCount (setRoleOf a NodeRole.SLAVE l) ≤ masterCount l := by
  induction l with
  | nil => exact Nat.le_refl 0
  | cons x xs ih =>
    rw [setRoleOf_cons]
    by_cases hx : x.1 = a
    · rw [if_pos hx, masterCount_cons, masterCount_cons]
      have h0 : ((({ x.2 with role := NodeRole.SLAVE } : NodeRec)).role ==
          NodeRole.MASTER) = false := rfl
      rw [h0]
      refine Nat.le_trans ?_ (Nat.le_add_right _ _)
      simpa using ih
    · rw [if_neg hx, masterCount_cons, masterCount_cons]
      exact Nat.add_le_add ih (Nat.le_refl _)

theorem masterCount_setAliveOf (a : String) (b : Bool)
    (l : List (String × NodeRec)) :
    masterCount (setAliveOf a b l) = masterCount l := by
  induction l with
  | nil => rfl
  | cons x xs ih =>
    show masterCount
        ((if x.1 = a then (x.1, { x.2 with alive := b }) else x) ::
          setAliveOf a b xs) = _
    by_cases hx : x.1 = a
    · rw [if_pos hx, masterCount_cons, masterCount_cons, ih]
    · rw [if_neg hx, masterCount_cons, masterCount_cons, ih]

theorem masterCount_elect (a : String) (l : List (String × NodeRec)) :
    masterCount (setRoleOf a NodeRole.MASTER (setRoleAll NodeRole.SLAVE l)) =
      (keysOf l).count a := by
  induction l with
  | nil => rfl
  | cons x xs ih =>
    rw [setRoleAll_cons, setRoleOf_cons, keysOf_cons, List.count_cons]
    by_cases hx : x.1 = a
    · rw [if_pos hx, masterCount_cons, ih]
      have hb : (x.1 == a) = true := by
        simp [hx]
      simp [hb]
    · rw [if_neg hx, masterCount_cons, ih]
      have hb : (x.1 == a) = false := by
        simp [hx]
      simp [hb]

theorem keysOf_eraseKey (a : String) (l : List (String × α)) :
    keysOf (eraseKey l a) = (keysOf l).filter (· ≠ a) := by
  unfold keysOf eraseKey
  induction l with
  | nil => rfl
  | cons x xs ih =>
    simp only [List.filter_cons, List.map_cons]
    by_cases hx : x.1 = a
    · have h1 : (decide (x.1 ≠ a)) = false := by
        simp [hx]
      simp only [h1, Bool.false_eq_true, if_false, ih]
    · have h1 : (decide (x.1 ≠ a)) = true := by
        simp [hx]
      simp only [h1, if_true, List.map_cons, ih]

theorem lookup_eraseKey_ne (a k : String) (l : List (String × α))
    (h : ¬k = a) : lookupKV (eraseKey l a) k = lookupKV l k := by
  induction l with
  | nil => rfl
  | cons x xs ih =>
    rw [eraseKey_cons, lookupKV_cons]
    by_cases hx : x.1 = a
    · rw [if_pos hx, ih, if_neg (by
        intro he
        exact h (by rw [← he, hx]))]
    · rw [if_neg hx, lookupKV_cons, ih]

theorem masterCount_eraseKey_le (a : String) (l : List (String × NodeRec)) :
    masterCount (eraseKey l a) ≤ masterCount l :=
  List.Sublist.countP_le _ (List.filter_sublist l)

theorem insertKV_of_lookup_none (l : List (String × α)) (k : String) (v : α)
    (h : lookupKV l k = none) : insertKV l k v = (k, v) :: l := by
  unfold insertKV
  rw [h]
  rfl

theorem aliveAddrs_mem_keys (l : List (String × NodeRec)) (x : String)
    (h : x ∈ aliveAddrs l) : x ∈ keysOf l := by
  unfold aliveAddrs at h
  obtain ⟨p, hp, hpx⟩ := List.mem_map.mp h
  exact hpx ▸ List.mem_map.mpr ⟨p, (List.mem_filter.mp hp).1, rfl⟩

theorem lowestAliveAddr_of_nil (l : List (String × NodeRec))
    (h : aliveAddrs l = []) : lowestAliveAddr l = "" := by
  unfold lowestAliveAddr
  rw [h]
  rfl

theorem lowestAliveAddr_spec (l : List (String × NodeRec))
    (hne : aliveAddrs l ≠ []) :
    lowestAliveAddr l ∈ aliveAddrs l ∧
    ∀ x ∈ aliveAddrs l, StrLe (lowestAliveAddr l) x :=
  sortedHead_spec (aliveAddrs l) hne

theorem lowestAliveAddr_ne_empty (l : List (String × NodeRec))
    (hwf : ∀ a ∈ keysOf l, a ≠ "") (hne : aliveAddrs l ≠ []) :
    ¬lowestAliveAddr l = "" :=
  hwf _ (aliveAddrs_mem_keys l _ (lowestAliveAddr_spec l hne).1)

theorem aliveAddrs_nil_of_lowest_empty (l : List (String × NodeRec))
    (hwf : ∀ a ∈ keysOf l, a ≠ "") (hL : lowestAliveAddr l = "") :
    aliveAddrs l = [] := by
  by_contra hne
  exact lowestAliveAddr_ne_empty l hwf hne hL

theorem lowestAliveAddr_setRoleOf (a : String) (ρ : NodeRole)
    (l : List (String × NodeRec)) :
    lowestAliveAddr (setRoleOf a ρ l) = lowestAliveAddr l := by
  unfold lowestAliveAddr
  rw [aliveAddrs_setRoleOf]

theorem electMaster_master_eq (s : ClusterState) :
    (electMaster s).master =
      if lowestAliveAddr s.nodes = "" then none
      else some (lowestAliveAddr s.nodes) := by
  unfold electMaster electMasterLocked
  by_cases hL : lowestAliveAddr s.nodes = "" <;> simp [hL]

theorem electMaster_nodes_eq (s : ClusterState)
    (hL : ¬lowestAliveAddr s.nodes = "") :
    (electMaster s).nodes =
      setRoleOf (lowestAliveAddr s.nodes) NodeRole.MASTER
        (setRoleAll NodeRole.SLAVE s.nodes) := by
  unfold electMaster electMasterLocked
  simp [hL]

theorem electMaster_nodes_eq_of_nil (s : ClusterState)
    (hL : lowestAliveAddr s.nodes = "") :
    (electMaster s).nodes = s.nodes := by
  unfold electMaster electMasterLocked
  simp [hL]

theorem checkAndElect_master_eq (s : ClusterState) :
    (checkAndElect s).1.master = (electMaster s).master := by
  rw [electMaster_master_eq]
  unfold checkAndElect
  rcases hm : s.master with _ | m
  · simp only
    by_cases hL : lowestAliveAddr s.nodes = ""
    · simp [hL, hm]
    · simp only [hL, hm, if_neg, if_false]
      rw [if_pos (Or.inl trivial)]
      unfold electMasterLocked
      simp [hL]
  · by_cases ha : aliveOf s.nodes m = true
    · simp only [hm, ha, if_true]
      by_cases hL : lowestAliveAddr s.nodes = ""
      · simp [hL]
      · simp only [hL, if_false]
        by_cases hml : m = lowestAliveAddr s.nodes
        · simp only [hml]
          simp [hL]
          rw [hm, hml]
        · have hcond : (some m = none ∨ m ≠ lowestAliveAddr s.nodes) :=
            Or.inr hml
          rw [if_pos hcond]
          unfold electMasterLocked
          simp [hL]
    · have ha' : aliveOf s.nodes m = false := by
        simpa using ha
      simp only [hm, ha', Bool.false_eq_true, if_false]
      by_cases hL : lowestAliveAddr s.nodes = ""
      · simp [hL]
      · simp only [hL, if_false]
        rw [if_pos (Or.inl trivial)]
        unfold electMasterLocked
        simp only [lowestAliveAddr_setRoleOf]
        simp [hL]

theorem setAliveOf_not_mem (a : String) (b : Bool)
    (l : List (String × NodeRec)) (h : ¬a ∈ keysOf l) :
    setAliveOf a b l = l := by
  induction l with
  | nil => rfl
  | cons x xs ih =>
    have hx : ¬x.1 = a := by
      intro he
      exact h (by
        rw [← he]
        exact List.mem_cons_self _ _)
    show (if x.1 = a then (x.1, { x.2 with alive := b }) else x) ::
        setAliveOf a b xs = x :: xs
    rw [if_neg hx, ih (fun hm => h (List.mem_cons_of_mem _ hm))]

theorem aliveAddrs_cons (x : String × NodeRec) (xs : List (String × NodeRec)) :
    aliveAddrs (x :: xs) =
      if x.2.alive then x.1 :: aliveAddrs xs else aliveAddrs xs := by
  unfold aliveAddrs
  rw [List.filter_cons]
  by_cases hb : x.2.alive <;> simp [hb]

theorem aliveAddrs_setAliveOf_true (a : String) (l : List (String × NodeRec))
    (hd : aliveAddrs l = []) (hm : a ∈ keysOf l)
    (hnd : (keysOf l).Nodup) :
    aliveAddrs (setAliveOf a true l) = [a] := by
  induction l with
  | nil => simp [keysOf] at hm
  | cons x xs ih =>
    rw [aliveAddrs_cons] at hd
    have hxdead : x.2.alive = false := by
      by_cases hb : x.2.alive = true
      · rw [hb] at hd
        simp at hd
      · simpa using hb
    rw [hxdead] at hd
    simp only [Bool.false_eq_true, if_false] at hd
    rw [keysOf_cons, List.nodup_cons] at hnd
    rw [keysOf_cons, List.mem_cons] at hm
    show aliveAddrs
        ((if x.1 = a then (x.1, { x.2 with alive := true }) else x) ::
          setAliveOf a true xs) = [a]
    rcases hm with hm | hm
    · rw [if_pos hm.symm, aliveAddrs_cons]
      simp only [if_true]
      rw [setAliveOf_not_mem a true xs (by
        rw [hm]
        exact hnd.1), hd, hm]
    · have hxa : ¬x.1 = a := by
        intro he
        exact hnd.1 (he ▸ hm)
      rw [if_neg hxa, aliveAddrs_cons, hxdead]
      simp only [Bool.false_eq_true, if_false]
      exact ih hd hm hnd.2

theorem lowestAliveAddr_singleton (l : List (String × NodeRec)) (a : String)
    (h : aliveAddrs l = [a]) : lowestAliveAddr l = a := by
  unfold lowestAliveAddr
  rw [h]
  rfl

/-- Claim C3: the election is the deterministic choice of the
lexicographically smallest live address. After `ElectMaster` the master
pointer is exactly the smallest alive address (none when no node is alive);
`CheckAndElect` leaves the pointer at the same value; the elected node — and
only it — carries the `MASTER` role; and from an all-dead cluster, reviving
any single node and electing makes exactly that node the leader. -/
theorem c3_election_lowest_alive (s : ClusterState)
    (hnd : (keysOf s.nodes).Nodup) (hwf : ∀ a ∈ keysOf s.nodes, a ≠ "") :
    ((electMaster s).master = none ↔ aliveAddrs s.nodes = []) ∧
    (∀ a, (electMaster s).master = some a →
      a ∈ aliveAddrs s.nodes ∧ ∀ b ∈ aliveAddrs s.nodes, StrLe a b) ∧
    ((checkAndElect s).1.master = (electMaster s).master) ∧
    (aliveAddrs s.nodes ≠ [] →
      ∃ a r, (electMaster s).master = some a ∧
        lookupKV (electMaster s).nodes a = some r ∧
        r.role = NodeRole.MASTER ∧
        (∀ b r', lookupKV (electMaster s).nodes b = some r' → b ≠ a →
          r'.role = NodeRole.SLAVE)) ∧
    (aliveAddrs s.nodes = [] → ∀ a ∈ keysOf s.nodes,
      (electMaster (setAlive s a true)).master = some a) := by
  refine ⟨?_, ?_, checkAndElect_master_eq s, ?_, ?_⟩
  · rw [electMaster_master_eq]
    by_cases hL : lowestAliveAddr s.nodes = ""
    · simp [hL, aliveAddrs_nil_of_lowest_empty s.nodes hwf hL]
    · simp only [hL, if_false]
      constructor
      · intro h
        exact absurd h (by simp)
      · intro h
        exact absurd (lowestAliveAddr_of_nil _ h) hL
  · intro a ha
    rw [electMaster_master_eq] at ha
    by_cases hL : lowestAliveAddr s.nodes = ""
    · rw [if_pos hL] at ha
      exact absurd ha (by simp)
    · rw [if_neg hL] at ha
      have haL : a = lowestAliveAddr s.nodes := (Option.some.inj ha).symm
      have hne : aliveAddrs s.nodes ≠ [] := fun h =>
        hL (lowestAliveAddr_of_nil _ h)
      obtain ⟨h1, h2⟩ := lowestAliveAddr_spec s.nodes hne
      exact haL ▸ ⟨h1, h2⟩
  · intro hne
    have hL : ¬lowestAliveAddr s.nodes = "" :=
      lowestAliveAddr_ne_empty _ hwf hne
    obtain ⟨hmem, _⟩ := lowestAliveAddr_spec s.nodes hne
    have hkey := aliveAddrs_mem_keys _ _ hmem
    rw [electMaster_master_eq, electMaster_nodes_eq s hL, if_neg hL]
    rcases ho : lookupKV s.nodes (lowestAliveAddr s.nodes) with _ | r0
    · exact absurd hkey ((lookup_none_iff_not_mem_keys _ _).mp ho)
    · refine ⟨lowestAliveAddr s.nodes,
        { r0 with role := NodeRole.MASTER }, rfl, ?_, rfl, ?_⟩
      · rw [lookup_setRoleOf, if_pos rfl, lookup_setRoleAll, ho]
        rfl
      · intro b r' hb hbne
        rw [lookup_setRoleOf, if_neg hbne, lookup_setRoleAll] at hb
        rcases hob : lookupKV s.nodes b with _ | rb
        · rw [hob] at hb
          exact absurd hb (by simp)
        · rw [hob] at hb
          have hr' : r' = { rb with role := NodeRole.SLAVE } := by
            simpa using hb.symm
          rw [hr']
  · intro hdead a hamem
    have hAl : aliveAddrs (setAliveOf a true s.nodes) = [a] :=
      aliveAddrs_setAliveOf_true a s.nodes hdead hamem hnd
    rw [electMaster_master_eq]
    have hLw : lowestAliveAddr (setAlive s a true).nodes = a :=
      lowestAliveAddr_singleton _ _ hAl
    rw [hLw, if_neg (hwf a hamem)]

/-- Fixture cluster: two live follower nodes `a:1` and `b:2`, no master. -/
def fixClusterAB : ClusterState :=
  { nodes := [("b:2", { role := NodeRole.SLAVE, alive := true }),
      ("a:1", { role := NodeRole.SLAVE, alive := true })],
    master := none }

/-- Witness for C3 at the two-node cluster: some node is elected master, it
carries the MASTER role, and the election picks `a:1`. -/
theorem c3_witness :
    (∃ a r, (electMaster fixClusterAB).master = some a ∧
      lookupKV (electMaster fixClusterAB).nodes a = some r ∧
      r.role = NodeRole.MASTER) ∧
    (electMaster fixClusterAB).master = some "a:1" := by
  have h := c3_election_lowest_alive fixClusterAB (by decide) (by decide)
  obtain ⟨a, r, h1, h2, h3, _⟩ := h.2.2.2.1 (by decide)
  refine ⟨⟨a, r, h1, h2, h3⟩, ?_⟩
  decide

theorem masterCount_pos_of_lookup (l : List (String × NodeRec)) (m : String)
    (r : NodeRec) (h : lookupKV l m = some r) (hr : r.role = NodeRole.MASTER) :
    1 ≤ masterCount l := by
  have hmem := lookup_some_mem l m r h
  have : 0 < masterCount l := by
    rw [masterCount, List.countP_pos_iff]
    exact ⟨(m, r), hmem, by simp [hr]⟩
  omega

theorem aliveAddrs_ne_nil_of_lowest (l : List (String × NodeRec))
    (hL : ¬lowestAliveAddr l = "") : aliveAddrs l ≠ [] := by
  intro h
  exact hL (lowestAliveAddr_of_nil l h)

theorem inv_demote (s : ClusterState) (m : String) (h : ClusterInv s) :
    ClusterInv { nodes := setRoleOf m NodeRole.SLAVE s.nodes, master := none } := by
  obtain ⟨hnd, hne, hc, _⟩ := h
  refine ⟨?_, ?_, ?_, ?_⟩
  · rw [keysOf_setRoleOf]
    exact hnd
  · rw [keysOf_setRoleOf]
    exact hne
  · exact Nat.le_trans (masterCount_setRoleOf_slave_le m s.nodes) hc
  · intro m2 hm2
    simp at hm2

theorem electLocked_count_one (s : ClusterState)
    (hnd : (keysOf s.nodes).Nodup) (hL : ¬lowestAliveAddr s.nodes = "") :
    masterCount (electMasterLocked s).1.nodes = 1 := by
  have hne := aliveAddrs_ne_nil_of_lowest s.nodes hL
  have hmem := aliveAddrs_mem_keys s.nodes _ (lowestAliveAddr_spec s.nodes hne).1
  unfold electMasterLocked
  simp only [hL, if_false]
  rw [masterCount_elect]
  exact List.count_eq_one_of_mem hnd hmem

theorem inv_electLocked (s : ClusterState) (h : ClusterInv s) :
    ClusterInv (electMasterLocked s).1 := by
  obtain ⟨hnd, hne, hc, _⟩ := h
  by_cases hL : lowestAliveAddr s.nodes = ""
  · unfold electMasterLocked
    simp only [hL, if_true]
    exact ⟨hnd, hne, hc, by simp⟩
  · have hcount := electLocked_count_one s hnd hL
    have hnea := aliveAddrs_ne_nil_of_lowest s.nodes hL
    have hmem := aliveAddrs_mem_keys s.nodes _
      (lowestAliveAddr_spec s.nodes hnea).1
    unfold electMasterLocked at hcount ⊢
    simp only [hL, if_false] at hcount ⊢
    refine ⟨?_, ?_, ?_, ?_⟩
    · rw [keysOf_setRoleOf, keysOf_setRoleAll]
      exact hnd
    · rw [keysOf_setRoleOf, keysOf_setRoleAll]
      exact hne
    · exact Nat.le_of_eq hcount
    · intro m hm
      simp only [Option.some.injEq] at hm
      rcases ho : lookupKV s.nodes (lowestAliveAddr s.nodes) with _ | r0
      · exact absurd hmem ((lookup_none_iff_not_mem_keys _ _).mp ho)
      · refine ⟨{ r0 with role := NodeRole.MASTER }, ?_, rfl⟩
        rw [← hm, lookup_setRoleOf, if_pos rfl, lookup_setRoleAll, ho]
        rfl

theorem reach_inv (s : ClusterState) (h : ReachR s) : ClusterInv s := by
  induction h with
  | init =>
    exact ⟨List.nodup_nil, by simp [keysOf, emptyCluster],
      by simp [masterCount, emptyCluster], by simp [emptyCluster]⟩
  | add s addr alive hr hfresh hne ih =>
    obtain ⟨ihnd, ihne, ihc, ihptr⟩ := ih
    have hnodes : (addNode s addr
        { role := NodeRole.SLAVE, alive := alive }).nodes =
        (addr, { role := NodeRole.SLAVE, alive := alive }) :: s.nodes := by
      unfold addNode
      exact insertKV_of_lookup_none _ _ _ hfresh
    refine ⟨?_, ?_, ?_, ?_⟩
    · rw [hnodes, keysOf_cons, List.nodup_cons]
      exact ⟨(lookup_none_iff_not_mem_keys _ _).mp hfresh, ihnd⟩
    · rw [hnodes, keysOf_cons]
      intro a ha
      rcases List.mem_cons.mp ha with rfl | ha
      · exact hne
      · exact ihne a ha
    · rw [hnodes, masterCount_cons]
      simpa using ihc
    · intro m hm
      have hm' : s.master = some m := hm
      obtain ⟨r, hr1, hr2⟩ := ihptr m hm'
      have hmne : ¬addr = m := by
        intro he
        rw [he] at hfresh
        rw [hfresh] at hr1
        exact Option.noConfusion hr1
      refine ⟨r, ?_, hr2⟩
      rw [hnodes, lookupKV_cons, if_neg hmne]
      exact hr1
  | remove s addr hr ih =>
    obtain ⟨ihnd, ihne, ihc, ihptr⟩ := ih
    unfold removeNode
    rcases ho : lookupKV s.nodes addr with _ | r0
    · exact ⟨ihnd, ihne, ihc, ihptr⟩
    · refine ⟨?_, ?_, ?_, ?_⟩
      · rw [keysOf_eraseKey]
        exact ihnd.filter _
      · rw [keysOf_eraseKey]
        intro a ha
        exact ihne a (List.mem_of_mem_filter ha)
      · exact Nat.le_trans (masterCount_eraseKey_le addr s.nodes) ihc
      · intro m hm
        simp only at hm
        by_cases hmm : s.master = some addr
        · rw [if_pos hmm] at hm
          exact Option.noConfusion hm
        · rw [if_neg hmm] at hm
          obtain ⟨r, hr1, hr2⟩ := ihptr m hm
          have hma : ¬m = addr := by
            intro he
            exact hmm (he ▸ hm)
          refine ⟨r, ?_, hr2⟩
          rw [lookup_eraseKey_ne addr m s.nodes hma]
          exact hr1
  | live s addr b hr ih =>
    obtain ⟨ihnd, ihne, ihc, ihptr⟩ := ih
    refine ⟨?_, ?_, ?_, ?_⟩
    · show (keysOf (setAliveOf addr b s.nodes)).Nodup
      rw [keysOf_setAliveOf]
      exact ihnd
    · show ∀ a ∈ keysOf (setAliveOf addr b s.nodes), a ≠ ""
      rw [keysOf_setAliveOf]
      exact ihne
    · show masterCount (setAliveOf addr b s.nodes) ≤ 1
      rw [masterCount_setAliveOf]
      exact ihc
    · intro m hm
      have hm' : s.master = some m := hm
      obtain ⟨r, hr1, hr2⟩ := ihptr m hm'
      show ∃ r', lookupKV (setAliveOf addr b s.nodes) m = some r' ∧
        r'.role = NodeRole.MASTER
      rw [lookup_setAliveOf]
      by_cases hma : m = addr
      · rw [if_pos hma, hr1]
        exact ⟨{ r with alive := b }, rfl, hr2⟩
      · rw [if_neg hma]
        exact ⟨r, hr1, hr2⟩
  | elect s hr ih => exact inv_electLocked s ih
  | evict s hr ih =>
    obtain ⟨ihnd, ihne, ihc, ihptr⟩ := ih
    unfold evictMaster
    rcases hm : s.master with _ | m
    · exact ⟨ihnd, ihne, ihc, ihptr⟩
    · exact inv_demote s m ⟨ihnd, ihne, ihc, ihptr⟩
  | check s hr ih =>
    obtain ⟨ihnd, ihne, ihc, ihptr⟩ := ih
    unfold checkAndElect
    rcases hm : s.master with _ | m
    · simp only [hm]
      by_cases hL : lowestAliveAddr s.nodes = ""
      · simp only [hL, if_true]
        exact ⟨ihnd, ihne, ihc, fun m2 hm2 => ihptr m2 hm2⟩
      · simp only [hL, if_false]
        rw [if_pos (Or.inl trivial)]
        exact inv_electLocked s ⟨ihnd, ihne, ihc, ihptr⟩
    · by_cases ha : aliveOf s.nodes m = true
      · simp only [hm, ha, if_true]
        by_cases hL : lowestAliveAddr s.nodes = ""
        · simp only [hL, if_true]
          exact inv_demote s m ⟨ihnd, ihne, ihc, ihptr⟩
        · simp only [hL, if_false]
          by_cases hml : m = lowestAliveAddr s.nodes
          · have hcond : ¬(some m = none ∨ m ≠ lowestAliveAddr s.nodes) := by
              rintro (hc | hc)
              · exact Option.noConfusion hc
              · exact hc hml
            rw [if_neg hcond]
            exact ⟨ihnd, ihne, ihc, fun m2 hm2 => ihptr m2 hm2⟩
          · have hcond : (some m = none ∨ m ≠ lowestAliveAddr s.nodes) :=
              Or.inr hml
            rw [if_pos hcond]
            exact inv_electLocked s ⟨ihnd, ihne, ihc, ihptr⟩
      · have ha' : aliveOf s.nodes m = false := by
          simpa using ha
        simp only [hm, ha', Bool.false_eq_true, if_false]
        by_cases hL : lowestAliveAddr s.nodes = ""
        · simp only [hL, if_true]
          exact inv_demote s m ⟨ihnd, ihne, ihc, ihptr⟩
        · simp only [hL, if_false]
          rw [if_pos (Or.inl trivial)]
          exact inv_electLocked _ (inv_demote s m ⟨ihnd, ihne, ihc, ihptr⟩)

theorem check_count_one (s : ClusterState) (hnd : (keysOf s.nodes).Nodup)
    (hwf : ∀ a ∈ keysOf s.nodes, a ≠ "")
    (hc : masterCount s.nodes ≤ 1)
    (hptr : ∀ m, s.master = some m →
      ∃ r, lookupKV s.nodes m = some r ∧ r.role = NodeRole.MASTER)
    (hne : aliveAddrs s.nodes ≠ []) :
    masterCount (checkAndElect s).1.nodes = 1 := by
  have hL : ¬lowestAliveAddr s.nodes = "" :=
    lowestAliveAddr_ne_empty _ hwf hne
  unfold checkAndElect
  rcases hm : s.master with _ | m
  · simp only [hm, hL, if_false]
    rw [if_pos (Or.inl trivial)]
    exact electLocked_count_one s hnd hL
  · by_cases ha : aliveOf s.nodes m = true
    · simp only [hm, ha, if_true, hL, if_false]
      by_cases hml : m = lowestAliveAddr s.nodes
      · have hcond : ¬(some m = none ∨ m ≠ lowestAliveAddr s.nodes) := by
          rintro (hcon | hcon)
          · exact Option.noConfusion hcon
          · exact hcon hml
        rw [if_neg hcond]
        obtain ⟨r, hr1, hr2⟩ := hptr m hm
        have h1 := masterCount_pos_of_lookup s.nodes m r hr1 hr2
        show masterCount s.nodes = 1
        omega
      · rw [if_pos (Or.inr hml)]
        exact electLocked_count_one s hnd hL
    · have ha' : aliveOf s.nodes m = false := by
        simpa using ha
      simp only [hm, ha', Bool.false_eq_true, if_false, hL]
      rw [if_pos (Or.inl trivial)]
      have hnd1 : (keysOf (setRoleOf m NodeRole.SLAVE s.nodes)).Nodup := by
        rw [keysOf_setRoleOf]
        exact hnd
      have hL1 : ¬lowestAliveAddr (setRoleOf m NodeRole.SLAVE s.nodes) = "" := by
        rw [lowestAliveAddr_setRoleOf]
        exact hL
      exact electLocked_count_one
        { nodes := setRoleOf m NodeRole.SLAVE s.nodes, master := none } hnd1 hL1

/-- Claim C4 (amended): over sequences of AddNode (follower-role nodes at
fresh, non-empty addresses), RemoveNode, SetAlive, ElectMaster, EvictMaster
and CheckAndElect — but not SetMaster — every reachable cluster state has at
most one node with the MASTER role, and a non-nil master pointer references a
present node whose role is MASTER. The conjunct "if any node is alive,
exactly one node is leader" holds immediately after an ElectMaster or
CheckAndElect, not in arbitrary reachable states (a node may be added alive
before any election runs, and AddNode / SetMaster with arbitrary roles can
break even the at-most-one bound). -/
theorem c4_leader_invariant_restricted :
    (∀ s, ReachR s →
      masterCount s.nodes ≤ 1 ∧
      ∀ m, s.master = some m →
        ∃ r, lookupKV s.nodes m = some r ∧ r.role = NodeRole.MASTER) ∧
    (∀ s, ReachR s → aliveAddrs s.nodes ≠ [] →
      masterCount (electMaster s).nodes = 1 ∧
      masterCount (checkAndElect s).1.nodes = 1) := by
  constructor
  · intro s h
    obtain ⟨_, _, hc, hptr⟩ := reach_inv s h
    exact ⟨hc, hptr⟩
  · intro s h hne
    obtain ⟨hnd, hwf, hc, hptr⟩ := reach_inv s h
    have hL := lowestAliveAddr_ne_empty _ hwf hne
    exact ⟨electLocked_count_one s hnd hL,
      check_count_one s hnd hwf hc hptr hne⟩

/-- Counterexample to C4 as stated: starting from the empty cluster, the
single operation AddNode of an alive follower yields a reachable state with
an alive node and zero leaders, refuting "if any node is alive, exactly one
node is leader" for arbitrary operation sequences. -/
theorem c4_counterexample :
    aliveAddrs (applyOps
      [ClusterOp.add "a:1" { role := NodeRole.SLAVE, alive := true }]).nodes ≠
        [] ∧
    masterCount (applyOps
      [ClusterOp.add "a:1" { role := NodeRole.SLAVE, alive := true }]).nodes =
        0 ∧
    (applyOps
      [ClusterOp.add "a:1" { role := NodeRole.SLAVE, alive := true }]).master =
        none := by
  refine ⟨by decide, by decide, by decide⟩

/-- Witness for C4 at a concrete reachable state: after adding one alive
follower and electing, exactly one node is leader. -/
theorem c4_witness :
    masterCount (electMaster (addNode emptyCluster "a:1"
      { role := NodeRole.SLAVE, alive := true })).nodes = 1 := by
  have hreach : ReachR (addNode emptyCluster "a:1"
      { role := NodeRole.SLAVE, alive := true }) :=
    ReachR.add emptyCluster "a:1" true ReachR.init (by decide) (by decide)
  exact (c4_leader_invariant_restricted.2 _ hreach (by decide)).1

end TwoPC
